import Mathlib

/-!
Shallow embedding of the organization CRUD service
(`src/cc/OrgCrudService.js`) of the email_processor repository.

The service reads a "Team List" spreadsheet of personnel rows, joins it
with team-mapping metadata and never-filled vacant positions (both
provided by the external `TeamsCrudService` collaborator, which is not
part of this repository and is therefore passed in as plain data), and
derives a flat list of org-chart nodes with parent pointers.

Modelling conventions:
* A sheet cell is a string, a boolean, or blank.  Date-typed cells are
  modelled as their ISO string form (the source converts a `Date` cell
  to `date.toISOString()`, which is value-preserving for every claim
  considered here); number cells likewise as their decimal string form.
* JavaScript truthiness of a cell value: a string is truthy iff
  non-empty, a boolean is its own truth value, a blank cell is falsy.
* `String(v || '')` and `String(v)` are modelled by `strOrEmpty` and
  `cellStr`; an out-of-range / missing-column access (`row[undefined]`)
  yields JS `undefined`, whose `String` form is `"undefined"`.
* The source stores a `_rowIndex` on each raw record; it is written and
  never read anywhere in the repository, so it is omitted here (records
  are otherwise exactly the fields built at
  `OrgCrudService.js:203-253`).
* JS objects used as string-keyed maps (`colMap`, `contractDirectors`,
  `teamToTask`, the `Map` `upidMap`) are modelled as association lists
  with last-write-wins assignment (`setAssoc`) and first-hit lookup
  (`lookupAssoc`), which is exactly the observable behaviour of JS
  object assignment / `Map.set`.
-/

namespace OrgCrud

/-- A spreadsheet cell value as returned by `getDataRange().getValues()`. -/
inductive Cell where
  | str (s : String)
  | boolean (b : Bool)
  | blank
deriving DecidableEq

/-- The whitespace set of JS string trimming, restricted to the ASCII
whitespace that sheet cells can contain (structurally recursive so that
concrete stores evaluate inside the kernel). -/
def isJsWhitespace (c : Char) : Bool :=
  c == ' ' || c == '\t' || c == '\n' || c == '\r'

/-- JS `s.trim()`. -/
def jsTrim (s : String) : String :=
  (((s.data.dropWhile isJsWhitespace).reverse.dropWhile isJsWhitespace).reverse).asString

/-- JS `c.toLowerCase()` on one character (ASCII letters; every cell a
claim exercises is ASCII). -/
def jsCharToLower (c : Char) : Char :=
  if 'A' ≤ c && c ≤ 'Z' then Char.ofNat (c.toNat + 32) else c

/-- JS `s.toLowerCase()`. -/
def jsToLower (s : String) : String :=
  (s.data.map jsCharToLower).asString

/-- JS `s.startsWith(p)`. -/
def jsStartsWith (s p : String) : Bool :=
  p.data.isPrefixOf s.data

/-- JS truthiness of a cell value. -/
def truthy : Cell → Bool
  | .str s => s ≠ ""
  | .boolean b => b
  | .blank => false

/-- JS truthiness of a possibly-absent cell (`undefined` is falsy). -/
def truthyOpt : Option Cell → Bool
  | some c => truthy c
  | none => false

/-- `String(v || '')` for a cell value `v`. -/
def strOrEmpty : Cell → String
  | .str s => s
  | .boolean b => if b then "true" else ""
  | .blank => ""

/-- `String(v)` for a cell value `v` (a blank cell reads as `''`). -/
def cellStr : Cell → String
  | .str s => s
  | .boolean b => if b then "true" else "false"
  | .blank => ""

/-- `row[i]` where `i` may be `undefined` (missing column). -/
def cellAtIdx (row : List Cell) : Option Nat → Option Cell
  | none => none
  | some i => row.get? i

/-- `String(row[i] || '')`: an absent cell (`undefined`) is falsy. -/
def cellStrOrEmptyAt (row : List Cell) (i : Option Nat) : String :=
  match cellAtIdx row i with
  | some c => strOrEmpty c
  | none => ""

/-- `String(row[i])`: `String(undefined)` is the literal `"undefined"`. -/
def cellStrAt (row : List Cell) (i : Option Nat) : String :=
  match cellAtIdx row i with
  | some c => cellStr c
  | none => "undefined"

/-- First-hit lookup in a string-keyed association list
(the observable behaviour of reading a JS object property / `Map.get`). -/
def lookupAssoc {α : Type} (m : List (String × α)) (k : String) : Option α :=
  (m.find? (fun kv => kv.1 == k)).map (·.2)

/-- Last-write-wins assignment `m[k] = v` on a string-keyed association
list: an existing binding is overwritten in place, a new key is appended
(JS object property assignment / `Map.set` key-order semantics). -/
def setAssoc {α : Type} (m : List (String × α)) (k : String) (v : α) : List (String × α) :=
  if (m.find? (fun kv => kv.1 == k)).isSome then
    m.map (fun kv => if kv.1 == k then (k, v) else kv)
  else m ++ [(k, v)]

/-- The Team List sheet: a header row of column names followed by data
rows (header cells are plain strings in the sheet). -/
structure Sheet where
  headers : List String
  rows : List (List Cell)
deriving DecidableEq

/-- `colMap[name]`: index of the last header whose trimmed text is
`name` (`headers.forEach((h, i) => colMap[String(h).trim()] = i)`). -/
def colIndex (headers : List String) (name : String) : Option Nat :=
  (List.range headers.length).foldl
    (fun acc i =>
      match headers.get? i with
      | some h => if jsTrim h == name then some i else acc
      | none => acc)
    none

/-- The Team List column headers (`TEAM_LIST_HEADERS`). -/
def teamListHeaders : List String :=
  [ "Employee Code",
    "Company",
    "Contract",
    "Task",
    "Primary Workstream",
    "Secondary Workstream",
    "First Name",
    "Last Name",
    "Email",
    "Primary Role",
    "Secondary Role",
    "Primary Role Start Date",
    "Contract Personnel Code (CPC)",
    "Heirarchy Identifier (HID)",
    "Unique Personnel ID (UPID)",
    "Supervisor Email",
    "Supervisor UPID",
    "Portfolio Leadership?",
    "Profile Picture",
    "EOD",
    "Personnel Contract Status",
    "Departure Date",
    "Departure Meeting Date",
    "Contract LCAT",
    "Location (City, ST)",
    "Tenure (Days)",
    "Node Type",
    "Active In Org" ]

/-- `CONFIG.ORG.CPC_LEVEL_MAP` (`src/cc/config.js:114-119`); identical
to the inline fallback in `_readTeamListRaw`. -/
def cpcLevelMap : List (Char × String) :=
  [ ('1', "director"), ('2', "deputy"), ('3', "lead"), ('4', "person") ]

/-- CPC-derived node type: `cpcMap[cpc.charAt(0)] || 'person'` when the
CPC string is non-empty, else `'person'` (all map values are non-empty,
so `|| 'person'` only fires for unmapped digits). -/
def derivedCpcType (cpc : String) : String :=
  match cpc.toList with
  | c :: _ => (((cpcLevelMap.find? (fun kv => kv.1 == c)).map (·.2)).getD "person")
  | [] => "person"

/-- A raw personnel record as produced by `_readTeamListRaw`
(`OrgCrudService.js:203-253`).  `_rowIndex` is omitted (dead field, see
the module comment). -/
structure PersonnelRecord where
  employeeCode : String := ""
  upid : String := ""
  cpc : String := ""
  hid : String := ""
  supervisorEmail : String := ""
  supervisorUpid : String := ""
  company : String := ""
  contract : String := ""
  task : String := ""
  primaryWorkstream : String := ""
  secondaryWorkstream : String := ""
  firstName : String := ""
  lastName : String := ""
  name : String := ""
  email : String := ""
  primaryRole : String := ""
  secondaryRole : String := ""
  primaryRoleStartDate : String := ""
  profilePicture : String := ""
  eod : String := ""
  personnelContractStatus : String := ""
  departureDate : String := ""
  departureMeetingDate : String := ""
  contractLcat : String := ""
  location : String := ""
  tenure : String := ""
  nodeType : String := ""
  portfolioLeadership : Bool := false
  activeInOrg : Bool := true
deriving DecidableEq

/-- Process one Team List data row (the loop body of `_readTeamListRaw`,
`OrgCrudService.js:157-256`); `none` means the row is skipped (blank
row, or Departed with Active In Org explicitly false). -/
def processRow (headers : List String) (row : List Cell) : Option PersonnelRecord :=
  let col := fun (name : String) => colIndex headers name
  let upidC := cellAtIdx row (col "Unique Personnel ID (UPID)")
  let emailC := cellAtIdx row (col "Email")
  -- Skip completely empty rows: `if (!upid && !email) continue;`
  if !truthyOpt upidC && !truthyOpt emailC then none
  else
    let personnelStatus := jsTrim (cellStrOrEmptyAt row (col "Personnel Contract Status"))
    let activeC := cellAtIdx row (col "Active In Org")
    -- `activeInOrg === false || activeInOrg === 'FALSE' || activeInOrg === 'false'`
    let activeExplicitFalse :=
      activeC == some (.boolean false) || activeC == some (.str "FALSE") ||
        activeC == some (.str "false")
    if personnelStatus == "Departed" && activeExplicitFalse then none
    else
      let firstName := jsTrim (cellStrOrEmptyAt row (col "First Name"))
      let lastName := jsTrim (cellStrOrEmptyAt row (col "Last Name"))
      -- `[firstName, lastName].filter(Boolean).join(' ')`
      let fullName := String.intercalate " " (([firstName, lastName]).filter (fun s => s ≠ ""))
      let explicitType := jsToLower (jsTrim (cellStrOrEmptyAt row (col "Node Type")))
      let leadC := cellAtIdx row (col "Portfolio Leadership?")
      -- `isLeadership === true || isLeadership === 'TRUE' || isLeadership === 'Yes'`
      let leadershipTruthy :=
        leadC == some (.boolean true) || leadC == some (.str "TRUE") ||
          leadC == some (.str "Yes")
      let nodeType0 :=
        if explicitType == "" then
          let derived := derivedCpcType (cellStrOrEmptyAt row (col "Contract Personnel Code (CPC)"))
          -- Leadership override (applied only on this CPC-derivation branch)
          if leadershipTruthy && derived == "person" then "director" else derived
        else explicitType
      let isDeparted := personnelStatus == "Departed"
      -- Vacancy detection: departed but position still active in org
      let nodeType1 := if isDeparted && !activeExplicitFalse then "vacant" else nodeType0
      some
        { employeeCode := cellStrOrEmptyAt row (col "Employee Code")
          upid := cellStrOrEmptyAt row (col "Unique Personnel ID (UPID)")
          cpc := cellStrOrEmptyAt row (col "Contract Personnel Code (CPC)")
          hid := cellStrOrEmptyAt row (col "Heirarchy Identifier (HID)")
          supervisorEmail := jsTrim (cellStrOrEmptyAt row (col "Supervisor Email"))
          supervisorUpid := jsTrim (cellStrOrEmptyAt row (col "Supervisor UPID"))
          company := cellStrOrEmptyAt row (col "Company")
          contract := cellStrOrEmptyAt row (col "Contract")
          task := cellStrOrEmptyAt row (col "Task")
          primaryWorkstream := cellStrOrEmptyAt row (col "Primary Workstream")
          secondaryWorkstream := cellStrOrEmptyAt row (col "Secondary Workstream")
          firstName := firstName
          lastName := lastName
          name := fullName
          email := jsTrim (cellStrOrEmptyAt row (col "Email"))
          primaryRole := cellStrOrEmptyAt row (col "Primary Role")
          secondaryRole := cellStrOrEmptyAt row (col "Secondary Role")
          primaryRoleStartDate := cellStrOrEmptyAt row (col "Primary Role Start Date")
          profilePicture := cellStrOrEmptyAt row (col "Profile Picture")
          eod := cellStrOrEmptyAt row (col "EOD")
          personnelContractStatus := personnelStatus
          departureDate := cellStrOrEmptyAt row (col "Departure Date")
          departureMeetingDate := cellStrOrEmptyAt row (col "Departure Meeting Date")
          contractLcat := cellStrOrEmptyAt row (col "Contract LCAT")
          location := cellStrOrEmptyAt row (col "Location (City, ST)")
          tenure := cellStrOrEmptyAt row (col "Tenure (Days)")
          nodeType := nodeType1
          portfolioLeadership := leadershipTruthy
          activeInOrg := !activeExplicitFalse }

/-- `_readTeamListRaw` (`OrgCrudService.js:134-265`), minus the cache
layer: read and normalize every personnel row of the Team List sheet.
An empty sheet (`data.length < 2`) yields `[]`, which coincides with
filtering zero rows. -/
def readTeamListRaw (sheet : Sheet) : List PersonnelRecord :=
  sheet.rows.filterMap (processRow sheet.headers)

/-- One row of the external `TeamsCrudService.getAllTeams()` result
(Team Mappings sheet).  Nullable string fields are modelled as `""`
(both are falsy and concatenate the same way in every place the core
uses them that a claim touches). -/
structure TeamMapping where
  teamId : String := ""
  teamName : String := ""
  task : String := ""
  contract : String := ""
  color : String := ""
  description : String := ""
  isActive : Bool := true
deriving DecidableEq

/-- One entry of `TeamsCrudService.getTaskMetadata()`. -/
structure TaskMeta where
  taskName : String := ""
  description : String := ""
  contract : String := ""
  color : String := ""
  defaultSlaThreshold : String := ""
  notifyOnEscalation : Bool := false
  displayOrder : Int := 0
deriving DecidableEq

/-- One row of `TeamsCrudService.getAllVacantPositions()`
(never-filled vacant positions). -/
structure VacantPosition where
  vacantId : String := ""
  task : String := ""
  team : String := ""
  supervisorUpid : String := ""
  contract : String := ""
  title : String := ""
  targetHireDate : String := ""
  requirements : String := ""
deriving DecidableEq

/-- A unified org-chart node (the record shape returned by
`getAllData`).  Fields that a given node kind does not set in the
source keep their defaults; conditionally-added personnel detail fields
(`profilePicture`, `eod`, dates, ...) that no claim mentions are
omitted. -/
structure Node where
  id : String := ""
  parentId : Option String := none
  company : String := ""
  contract : String := ""
  task : Option String := none
  team : Option String := none
  name : String := ""
  email : String := ""
  title : String := ""
  type : String := ""
  active : Bool := true
  employeeCode : String := ""
  firstName : String := ""
  lastName : String := ""
  upid : String := ""
  cpc : String := ""
  hid : String := ""
  supervisorUpid : String := ""
  supervisorEmail : String := ""
  primaryWorkstream : String := ""
  secondaryWorkstream : String := ""
  description : String := ""
  color : String := ""
  displayOrder : Int := 0
  notifyOnEscalation : Bool := false
  defaultSlaThreshold : String := ""
  targetHireDate : String := ""
  requirements : String := ""
  isStructural : Bool := false
  isVacantPosition : Bool := false
deriving DecidableEq

/-- The whole world the service reads: the Team List sheet plus the
three external `TeamsCrudService` collections. -/
structure Env where
  sheet : Sheet
  teams : List TeamMapping := []
  taskMeta : List (String × TaskMeta) := []
  vacants : List VacantPosition := []
deriving DecidableEq

/-- Insertion-ordered `Set.add` (JS `Set` iterates in first-insertion
order). -/
def insertUniq (l : List String) (x : String) : List String :=
  if l.contains x then l else l ++ [x]

/-- The unique-task universe of `_deriveStructuralNodes`
(`OrgCrudService.js:283-285`): tasks of active team mappings, then
tasks seen on personnel records. -/
def taskIdsOf (teams : List TeamMapping) (personnel : List PersonnelRecord) : List String :=
  let fromTeams :=
    teams.foldl (fun acc t => if t.task ≠ "" && t.isActive then insertUniq acc t.task else acc) []
  personnel.foldl (fun acc p => if p.task ≠ "" then insertUniq acc p.task else acc) fromTeams

/-- `teamToTask` (`OrgCrudService.js:289-295`); built exactly as the
source does (it is passed to `_resolveParentId` but never consulted
there). -/
def teamToTaskOf (teams : List TeamMapping) : List (String × String) :=
  teams.foldl
    (fun acc t => if t.teamId ≠ "" && t.isActive then setAssoc acc t.teamId t.task else acc) []

/-- `contractDirectors` (`OrgCrudService.js:298-303`): contract → UPID
of the last-seen director record with a truthy contract and UPID. -/
def contractDirectorsOf (personnel : List PersonnelRecord) : List (String × String) :=
  personnel.foldl
    (fun acc p =>
      if p.nodeType == "director" && p.contract ≠ "" && p.upid ≠ "" then
        setAssoc acc p.contract p.upid
      else acc)
    []

/-- `meta.contract || ''` over `taskMeta[taskId] || {}`. -/
def metaContract (meta : Option TaskMeta) : String :=
  match meta with | some m => m.contract | none => ""

/-- One structural task node (`OrgCrudService.js:307-332`). -/
def mkTaskNode (taskMeta : List (String × TaskMeta)) (directors : List (String × String))
    (taskId : String) : Node :=
  let meta := lookupAssoc taskMeta taskId
  let contract := metaContract meta
  let directorUpid := lookupAssoc directors contract
  { id := "task:" ++ taskId
    parentId := some (directorUpid.getD "root")
    company := ""
    contract := contract
    task := some taskId
    team := none
    name := match meta with
      | some m => if m.taskName ≠ "" then m.taskName else taskId
      | none => taskId
    email := ""
    title := match meta with | some m => m.description | none => ""
    type := "task"
    active := true
    notifyOnEscalation := match meta with | some m => m.notifyOnEscalation | none => false
    defaultSlaThreshold := match meta with | some m => m.defaultSlaThreshold | none => ""
    color := match meta with | some m => m.color | none => ""
    description := match meta with | some m => m.description | none => ""
    displayOrder := match meta with | some m => m.displayOrder | none => 0
    isStructural := true }

/-- Structural task nodes of `_deriveStructuralNodes`. -/
def taskNodesOf (env : Env) (personnel : List PersonnelRecord) : List Node :=
  (taskIdsOf env.teams personnel).map
    (mkTaskNode env.taskMeta (contractDirectorsOf personnel))

/-- Structural team nodes (`OrgCrudService.js:335-355`): one per active
mapping with a truthy teamId, parent unconditionally `task:` + its
mapping's task. -/
def mkTeamNode (t : TeamMapping) : Node :=
  { id := "team:" ++ t.teamId
    parentId := some ("task:" ++ t.task)
    company := ""
    contract := t.contract
    task := some t.task
    team := some t.teamId
    name := if t.teamName ≠ "" then t.teamName else t.teamId
    email := ""
    title := ""
    type := "team"
    active := true
    color := t.color
    description := t.description
    isStructural := true }

def teamNodesOf (env : Env) : List Node :=
  env.teams.filterMap (fun t => if t.teamId ≠ "" && t.isActive then some (mkTeamNode t) else none)

/-- The hidden root node (`OrgCrudService.js:358-371`). -/
def rootNode : Node :=
  { id := "root"
    parentId := none
    company := ""
    contract := ""
    task := none
    team := none
    name := ""
    email := ""
    title := ""
    type := "hidden"
    active := true
    isStructural := true }

/-- `upidMap` (`OrgCrudService.js:463-466`): UPID → personnel record,
last record wins, records without a UPID not indexed. -/
def buildUpidMap (personnel : List PersonnelRecord) : List (String × PersonnelRecord) :=
  personnel.foldl (fun m p => if p.upid ≠ "" then setAssoc m p.upid p else m) []

/-- Rule 2a of `_resolveParentId` (`OrgCrudService.js:397-409`): team
(workstream) match within the same task.  `none` means "fall through". -/
def resolveStep2a (teams : List TeamMapping) (person : PersonnelRecord)
    (teamNodeIds : List String) : Option String :=
  if person.task ≠ "" && person.primaryWorkstream ≠ "" then
    match teams.find? (fun t =>
        t.teamName == person.primaryWorkstream && t.task == person.task && t.isActive) with
    | some mt =>
      if mt.teamId ≠ "" && teamNodeIds.contains ("team:" ++ mt.teamId) then
        some ("team:" ++ mt.teamId)
      else none
    | none => none
  else none

/-- Rule 2b (`OrgCrudService.js:411-417`): supervisor on the same task. -/
def resolveStep2b (person : PersonnelRecord) (upidMap : List (String × PersonnelRecord)) :
    Option String :=
  if person.task ≠ "" && person.supervisorUpid ≠ "" then
    match lookupAssoc upidMap person.supervisorUpid with
    | some sup => if sup.task == person.task then some person.supervisorUpid else none
    | none => none
  else none

/-- Rule 2c (`OrgCrudService.js:419-423`): fall back to the task node. -/
def resolveStep2c (person : PersonnelRecord) (taskNodeIds : List String) : Option String :=
  if person.task ≠ "" && taskNodeIds.contains ("task:" ++ person.task) then
    some ("task:" ++ person.task)
  else none

/-- Rule 3 (`OrgCrudService.js:426-429`): no-task direct supervisor link. -/
def resolveStep3 (person : PersonnelRecord) (upidMap : List (String × PersonnelRecord)) :
    Option String :=
  if person.supervisorUpid ≠ "" && (lookupAssoc upidMap person.supervisorUpid).isSome then
    some person.supervisorUpid
  else none

/-- `_resolveParentId` (`OrgCrudService.js:388-433`): the prioritized
parent cascade for one personnel record, first rule to fire wins, root
as last resort.  `teams` stands for the `TeamsCrudService.getAllTeams()`
call inside rule 2a; `teamToTask` is accepted and ignored exactly as in
the source. -/
def resolveParentId (teams : List TeamMapping) (person : PersonnelRecord)
    (upidMap : List (String × PersonnelRecord)) (teamToTask : List (String × String))
    (teamNodeIds taskNodeIds : List String) : String :=
  let _ := teamToTask
  -- 1. Directors/Deputies report to root
  if person.nodeType == "director" || person.nodeType == "deputy" then "root"
  else
    (((resolveStep2a teams person teamNodeIds).orElse fun _ =>
        resolveStep2b person upidMap).orElse fun _ =>
          resolveStep2c person taskNodeIds).orElse (fun _ => resolveStep3 person upidMap)
      |>.getD "root"

/-- The unified person record built in `getAllData`
(`OrgCrudService.js:472-523`). -/
def mkPersonNode (teams : List TeamMapping) (upidMap : List (String × PersonnelRecord))
    (teamToTask : List (String × String)) (teamNodeIds taskNodeIds : List String)
    (p : PersonnelRecord) : Node :=
  { id := if p.upid ≠ "" then p.upid else if p.email ≠ "" then p.email else p.employeeCode
    parentId := some (resolveParentId teams p upidMap teamToTask teamNodeIds taskNodeIds)
    company := p.company
    contract := p.contract
    task := if p.task ≠ "" then some p.task else none
    team := if p.primaryWorkstream ≠ "" then some p.primaryWorkstream else none
    name := if p.nodeType == "vacant" then
        "VACANT - " ++ (if p.name ≠ "" then p.name else "Position")
      else p.name
    email := p.email
    title := p.primaryRole
    type := p.nodeType
    active := true
    employeeCode := p.employeeCode
    firstName := p.firstName
    lastName := p.lastName
    upid := p.upid
    cpc := p.cpc
    hid := p.hid
    supervisorUpid := p.supervisorUpid
    supervisorEmail := p.supervisorEmail
    primaryWorkstream := p.primaryWorkstream
    secondaryWorkstream := p.secondaryWorkstream }

/-- The parent cascade for a never-filled vacancy plus its unified
record (`OrgCrudService.js:527-556`). -/
def vacantParentOf (upidMap : List (String × PersonnelRecord)) (v : VacantPosition) : String :=
  if v.supervisorUpid ≠ "" && (lookupAssoc upidMap v.supervisorUpid).isSome then v.supervisorUpid
  else if v.team ≠ "" then "team:" ++ v.team
  else if v.task ≠ "" then "task:" ++ v.task
  else "root"

def mkVacantNode (upidMap : List (String × PersonnelRecord)) (v : VacantPosition) : Node :=
  { id := v.vacantId
    parentId := some (vacantParentOf upidMap v)
    company := ""
    contract := v.contract
    task := if v.task ≠ "" then some v.task else none
    team := if v.team ≠ "" then some v.team else none
    name := "VACANT"
    email := ""
    title := if v.title ≠ "" then v.title else "Vacant Position"
    type := "vacant"
    active := true
    targetHireDate := v.targetHireDate
    requirements := v.requirements
    isVacantPosition := true }

/-- `getAllData` (`OrgCrudService.js:445-573`), minus the cache layer:
root + task nodes + team nodes + resolved personnel + never-filled
vacancies (the pure computation; the surrounding try/catch can only
fire on store access, which the embedding supplies as data). -/
def getAllData (env : Env) : List Node :=
  let personnel := readTeamListRaw env.sheet
  let taskNodes := taskNodesOf env personnel
  let teamNodes := teamNodesOf env
  let teamToTask := teamToTaskOf env.teams
  let upidMap := buildUpidMap personnel
  let teamNodeIds := teamNodes.map (·.id)
  let taskNodeIds := taskNodes.map (·.id)
  let personRecords :=
    personnel.map (mkPersonNode env.teams upidMap teamToTask teamNodeIds taskNodeIds)
  let vacantRecords := env.vacants.map (mkVacantNode upidMap)
  rootNode :: (taskNodes ++ teamNodes ++ personRecords ++ vacantRecords)

/-- `getById` (`OrgCrudService.js:588-591`). -/
def getById (env : Env) (id : String) : Option Node :=
  (getAllData env).find? (fun p => p.id == id)

/-- `getByEmail` (`OrgCrudService.js:1023-1028`). -/
def getByEmail (env : Env) (email : String) : List Node :=
  if email == "" then []
  else
    let normalizedEmail := jsTrim (jsToLower email)
    (getAllData env).filter (fun p =>
      p.email ≠ "" && jsTrim (jsToLower p.email) == normalizedEmail)

/-! ### Write path -/

/-- Value of the maximal leading run of decimal digits of a character
list; `none` when there is no leading digit. -/
def digitsVal (cs : List Char) : Option Nat :=
  let ds := cs.takeWhile Char.isDigit
  if ds.isEmpty then none
  else some (ds.foldl (fun a c => a * 10 + (c.toNat - ('0').toNat)) 0)

/-- `parseInt(s, 10)`: skip leading whitespace, optional sign, maximal
run of decimal digits; `none` stands for `NaN`. -/
def jsParseInt (s : String) : Option Int :=
  match (jsTrim s).data with
  | '-' :: rest => (digitsVal rest).map (fun n => -(n : Int))
  | '+' :: rest => (digitsVal rest).map (fun n => (n : Int))
  | cs => (digitsVal cs).map (fun n => (n : Int))

/-- `String.prototype.padStart(w, '0')`: left-pad with zeros up to
width `w`; longer strings are returned unchanged (never truncated). -/
def padStartZero (w : Nat) (s : String) : String :=
  if s.length ≥ w then s else (List.replicate (w - s.length) '0').asString ++ s

/-- `_generateNextHid` (`OrgCrudService.js:689-697`). -/
def generateNextHid (sheet : Sheet) : String :=
  let personnel := readTeamListRaw sheet
  let maxHid : Int :=
    personnel.foldl
      (fun m p =>
        match jsParseInt p.hid with
        | some num => if num > m then num else m
        | none => m)
      0
  padStartZero 3 (toString (maxHid + 1))

/-- The person payload accepted by `addPerson`.  Absent string fields
are `""` (falsy); `activeInOrg` is `true` unless explicitly false
(`person.activeInOrg !== false`). -/
structure PersonInput where
  upid : String := ""
  cpc : String := ""
  hid : String := ""
  name : String := ""
  firstName : String := ""
  lastName : String := ""
  title : String := ""
  primaryRole : String := ""
  secondaryRole : String := ""
  secondaryRoles : String := ""
  reportsTo : String := ""
  supervisorUpid : String := ""
  supervisorEmail : String := ""
  employeeCode : String := ""
  company : String := ""
  contract : String := ""
  task : String := ""
  primaryWorkstream : String := ""
  team : String := ""
  secondaryWorkstream : String := ""
  email : String := ""
  primaryRoleStartDate : String := ""
  profilePicture : String := ""
  eod : String := ""
  personnelContractStatus : String := ""
  departureDate : String := ""
  departureMeetingDate : String := ""
  contractLcat : String := ""
  location : String := ""
  tenure : String := ""
  nodeType : String := ""
  type : String := ""
  portfolioLeadership : Bool := false
  activeInOrg : Bool := true
deriving DecidableEq

/-- `_buildTeamListRow` (`OrgCrudService.js:603-634`). -/
def buildTeamListRow (person : PersonInput) : List Cell :=
  [ .str person.employeeCode,
    .str person.company,
    .str person.contract,
    .str person.task,
    .str (if person.primaryWorkstream ≠ "" then person.primaryWorkstream else person.team),
    .str person.secondaryWorkstream,
    .str person.firstName,
    .str person.lastName,
    .str person.email,
    .str person.primaryRole,
    .str (if person.secondaryRole ≠ "" then person.secondaryRole else person.secondaryRoles),
    .str person.primaryRoleStartDate,
    .str person.cpc,
    .str person.hid,
    .str person.upid,
    .str person.supervisorEmail,
    .str person.supervisorUpid,
    .str (if person.portfolioLeadership then "TRUE" else ""),
    .str person.profilePicture,
    .str person.eod,
    .str (if person.personnelContractStatus ≠ "" then person.personnelContractStatus else "Active"),
    .str person.departureDate,
    .str person.departureMeetingDate,
    .str person.contractLcat,
    .str person.location,
    .str person.tenure,
    .str (if person.nodeType ≠ "" then person.nodeType
      else if person.type ≠ "" then person.type else "person"),
    .str (if person.activeInOrg then "TRUE" else "FALSE") ]

/-- Result shape of the write operations (`{success, error?, id?}`). -/
structure WriteResult where
  success : Bool
  error : Option String := none
  id : Option String := none
deriving DecidableEq

/-- `{ success: true, id }`. -/
def okResult (id : String) : WriteResult :=
  { success := true, id := some id }

/-- `{ success: false, error: 'Person not found with UPID: ' + id }`. -/
def notFoundResult (id : String) : WriteResult :=
  { success := false, error := some ("Person not found with UPID: " ++ id) }

/-- `addPerson` step: generate the UPID if not provided
(`OrgCrudService.js:648-652`). -/
def assignUpid (sheet : Sheet) (person : PersonInput) : PersonInput :=
  if person.upid == "" then
    { person with upid :=
        (if person.cpc ≠ "" then person.cpc else "400") ++ "-" ++
          (if person.hid ≠ "" then person.hid else generateNextHid sheet) }
  else person

/-- `addPerson` step: split `name` into first/last when provided as a
single field (`OrgCrudService.js:655-659`). -/
def splitNameInput (person : PersonInput) : PersonInput :=
  if person.name ≠ "" && (person.firstName == "" || person.lastName == "") then
    { person with
      firstName := if person.firstName ≠ "" then person.firstName
        else (person.name.splitOn " ").headD ""
      lastName := if person.lastName ≠ "" then person.lastName
        else String.intercalate " " ((person.name.splitOn " ").drop 1) }
  else person

/-- `addPerson` step: map `title` → `primaryRole`
(`OrgCrudService.js:662-664`). -/
def mapTitleInput (person : PersonInput) : PersonInput :=
  if person.title ≠ "" && person.primaryRole == "" then
    { person with primaryRole := person.title }
  else person

/-- `addPerson` step: map `reportsTo` → `supervisorUpid`
(`OrgCrudService.js:667-669`). -/
def mapReportsToInput (person : PersonInput) : PersonInput :=
  if person.reportsTo ≠ "" && person.supervisorUpid == "" then
    { person with supervisorUpid := person.reportsTo }
  else person

/-- `addPerson` (`OrgCrudService.js:641-682`).  `perm` is the outcome
of the external `PermissionService.requirePermission('org.edit')` gate:
when it denies, the exception propagates (`Except.error`); otherwise
the operation appends a row and reports success. -/
def addPerson (perm : Bool) (env : Env) (person : PersonInput) :
    Except String (WriteResult × Sheet) :=
  if !perm then .error "Permission denied: org.edit"
  else
    let person4 := mapReportsToInput (mapTitleInput (splitNameInput (assignUpid env.sheet person)))
    .ok (okResult person4.upid,
      { env.sheet with rows := env.sheet.rows ++ [buildTeamListRow person4] })

/-- Write one cell inside a row, extending the row with blanks if the
sheet write lands past its current width (as a sheet write does). -/
def setCellInRow (row : List Cell) (c : Nat) (v : Cell) : List Cell :=
  if c < row.length then row.set c v
  else (row ++ List.replicate (c + 1 - row.length) Cell.blank).set c v

/-- `sheet.getRange(r, c).setValue(v)` restricted to existing data
rows, with `r` the 0-based index into `rows` (sheet row `r + 2`). -/
def setSheetCell (s : Sheet) (r c : Nat) (v : Cell) : Sheet :=
  match s.rows.get? r with
  | some row => { s with rows := s.rows.set r (setCellInRow row c v) }
  | none => s

/-- The 0-based data-row index of the first row whose UPID cell,
stringified and trimmed, equals the trimmed id (the scan loops of
`updatePerson` / `deletePerson`). -/
def findRowIdx (headers : List String) (rows : List (List Cell)) (id : String) : Option Nat :=
  let upidCol := colIndex headers "Unique Personnel ID (UPID)"
  (List.range rows.length).find? (fun i =>
    match rows.get? i with
    | some row => jsTrim (cellStrAt row upidCol) == jsTrim id
    | none => false)

/-- `fieldToHeader` (`OrgCrudService.js:732-765`), in source order. -/
def fieldToHeader : List (String × String) :=
  [ ("employeeCode", "Employee Code"),
    ("company", "Company"),
    ("contract", "Contract"),
    ("task", "Task"),
    ("primaryWorkstream", "Primary Workstream"),
    ("team", "Primary Workstream"),
    ("secondaryWorkstream", "Secondary Workstream"),
    ("firstName", "First Name"),
    ("lastName", "Last Name"),
    ("email", "Email"),
    ("title", "Primary Role"),
    ("primaryRole", "Primary Role"),
    ("secondaryRole", "Secondary Role"),
    ("secondaryRoles", "Secondary Role"),
    ("primaryRoleStartDate", "Primary Role Start Date"),
    ("cpc", "Contract Personnel Code (CPC)"),
    ("hid", "Heirarchy Identifier (HID)"),
    ("upid", "Unique Personnel ID (UPID)"),
    ("supervisorEmail", "Supervisor Email"),
    ("supervisorUpid", "Supervisor UPID"),
    ("reportsTo", "Supervisor UPID"),
    ("portfolioLeadership", "Portfolio Leadership?"),
    ("profilePicture", "Profile Picture"),
    ("eod", "EOD"),
    ("personnelContractStatus", "Personnel Contract Status"),
    ("departureDate", "Departure Date"),
    ("departureMeetingDate", "Departure Meeting Date"),
    ("contractLcat", "Contract LCAT"),
    ("location", "Location (City, ST)"),
    ("nodeType", "Node Type"),
    ("type", "Node Type"),
    ("activeInOrg", "Active In Org") ]

/-- `updatePerson` (`OrgCrudService.js:705-801`).  `updates` is the
update payload as an ordered key/value object; the claims exercised
here pass string values, so values are modelled as strings (`null` /
`undefined` values are coerced to `''` by the source before writing
and never appear in the claims). -/
def updatePerson (perm : Bool) (env : Env) (id : String) (updates : List (String × String)) :
    Except String (WriteResult × Sheet) :=
  if !perm then .error "Permission denied: org.edit"
  else
    match findRowIdx env.sheet.headers env.sheet.rows id with
    | none => .ok (notFoundResult id, env.sheet)
    | some i =>
      -- name → First Name / Last Name
      let updates1 :=
        match lookupAssoc updates "name" with
        | some nm =>
          let parts := nm.splitOn " "
          setAssoc (setAssoc updates "firstName" (parts.headD ""))
            "lastName" (String.intercalate " " (parts.drop 1))
        | none => updates
      -- parentId → Supervisor UPID, only for non-structural ids
      let updates2 :=
        match lookupAssoc updates1 "parentId" with
        | some p =>
          if !(jsStartsWith p "task:") && !(jsStartsWith p "team:") && p ≠ "root" then
            setAssoc updates1 "supervisorUpid" p
          else updates1
        | none => updates1
      let newSheet :=
        updates2.foldl
          (fun s kv =>
            match lookupAssoc fieldToHeader kv.1 with
            | some header =>
              match colIndex env.sheet.headers header with
              | some c => setSheetCell s i c (.str kv.2)
              | none => s
            | none => s)
          env.sheet
      .ok (okResult id, newSheet)

/-- `deletePerson` (`OrgCrudService.js:809-852`): soft delete.
`extDeleteVacant` stands for the external
`TeamsCrudService.deleteVacantPosition`, which owns the `VAC-` branch
and does not touch the Team List sheet. -/
def deletePerson (perm : Bool) (extDeleteVacant : String → WriteResult) (env : Env)
    (id : String) : Except String (WriteResult × Sheet) :=
  if !perm then .error "Permission denied: org.edit"
  else if id ≠ "" && jsStartsWith id "VAC-" then .ok (extDeleteVacant id, env.sheet)
  else
    let headers := env.sheet.headers
    let activeCol := colIndex headers "Active In Org"
    let statusCol := colIndex headers "Personnel Contract Status"
    match findRowIdx headers env.sheet.rows id with
    | some i =>
      match activeCol, statusCol with
      | some a, some st =>
        .ok (okResult id,
          setSheetCell (setSheetCell env.sheet i a (.str "FALSE")) i st (.str "Departed"))
      | _, _ =>
        -- a missing column makes the source compute `NaN` coordinates and
        -- throw inside the try, surfacing as a caught structured failure
        .ok ({ success := false, error := some "Cannot read Team List columns" }, env.sheet)
    | none =>
      .ok (notFoundResult id, env.sheet)

/-! ### Observers used to state the tree properties -/

/-- The parent pointer of the node carrying `id` (first hit, as a
renderer following `parentId` into the flat list would find it). -/
def parentOf (nodes : List Node) (id : String) : Option String :=
  (nodes.find? (fun n => n.id == id)).bind (·.parentId)

/-- Does following `parentId` pointers from `id` land on the root node
within at most `k` hops? -/
def reachesRootWithin (nodes : List Node) : String → Nat → Bool
  | id, 0 => id == "root"
  | id, k + 1 =>
    id == "root" ||
      (match parentOf nodes id with
       | some p => reachesRootWithin nodes p k
       | none => false)

/-- The id reached after exactly `k` parent hops from `id` (`none` when
the chain falls off the node list or hits the root's null parent). -/
def ancestorAfter (nodes : List Node) : String → Nat → Option String
  | id, 0 => some id
  | id, k + 1 =>
    match parentOf nodes id with
    | some p => ancestorAfter nodes p k
    | none => none

/-! ### Row accessors over the standard Team List header layout
(used to phrase claims about individual sheet rows) -/

def rowStatus (row : List Cell) : String :=
  jsTrim (cellStrOrEmptyAt row (colIndex teamListHeaders "Personnel Contract Status"))

def rowActiveCell (row : List Cell) : Option Cell :=
  cellAtIdx row (colIndex teamListHeaders "Active In Org")

def rowUpidCell (row : List Cell) : Option Cell :=
  cellAtIdx row (colIndex teamListHeaders "Unique Personnel ID (UPID)")

def rowEmailCell (row : List Cell) : Option Cell :=
  cellAtIdx row (colIndex teamListHeaders "Email")

def rowLeadCell (row : List Cell) : Option Cell :=
  cellAtIdx row (colIndex teamListHeaders "Portfolio Leadership?")

def rowNodeTypeStr (row : List Cell) : String :=
  jsToLower (jsTrim (cellStrOrEmptyAt row (colIndex teamListHeaders "Node Type")))

def rowCpcStr (row : List Cell) : String :=
  cellStrOrEmptyAt row (colIndex teamListHeaders "Contract Personnel Code (CPC)")

def rowUpidStr (row : List Cell) : String :=
  cellStrOrEmptyAt row (colIndex teamListHeaders "Unique Personnel ID (UPID)")

def rowEmailStr (row : List Cell) : String :=
  jsTrim (cellStrOrEmptyAt row (colIndex teamListHeaders "Email"))

def rowEmployeeCodeStr (row : List Cell) : String :=
  cellStrOrEmptyAt row (colIndex teamListHeaders "Employee Code")

/-- The node id the unified record of this row will carry
(`p.upid || p.email || p.employeeCode`). -/
def rowDerivedId (row : List Cell) : String :=
  if rowUpidStr row ≠ "" then rowUpidStr row
  else if rowEmailStr row ≠ "" then rowEmailStr row
  else rowEmployeeCodeStr row

/-! ### Concrete stores used for counterexamples and witnesses -/

/-- A Team List row in standard column order built from the handful of
cells the scenarios vary. -/
def testRow (contract task pw fn ln email cpc hid upid supUpid status : String)
    (lead nodeTypeC activeC : Cell) : List Cell :=
  [ .blank, .blank, .str contract, .str task, .str pw, .blank,
    .str fn, .str ln, .str email, .blank, .blank, .blank,
    .str cpc, .str hid, .str upid, .blank, .str supUpid, lead,
    .blank, .blank, .str status, .blank, .blank, .blank, .blank, .blank,
    nodeTypeC, activeC ]

/-- Two active records on the same task naming each other as
supervisor: the same-task supervisor rule links them into a 2-cycle. -/
def envCycle : Env :=
  { sheet :=
      { headers := teamListHeaders
        rows :=
          [ testRow "C1" "T1" "" "Ann" "Alpha" "ann@x.com" "401" "001" "401-001" "401-002"
              "Active" .blank .blank .blank,
            testRow "C1" "T1" "" "Bob" "Beta" "bob@x.com" "401" "002" "401-002" "401-001"
              "Active" .blank .blank .blank ] } }

/-- A never-filled vacancy whose task has no structural node (nobody
else is on `TASK-9`): its fallback parent `task:TASK-9` dangles. -/
def envVacDangling : Env :=
  { sheet := { headers := teamListHeaders, rows := [] }
    vacants := [ { vacantId := "VAC-9-001", task := "TASK-9" } ] }

/-- Scenario A: an active team mapping matching the person's workstream
and task, with the supervisor also resolvable on the same task. -/
def envScenarioA : Env :=
  { sheet :=
      { headers := teamListHeaders
        rows :=
          [ testRow "SQuAT" "TASK-001" "Program Management Team" "Pat" "PM" "pat@x.com" "310"
              "003" "310-003" "100-001" "Active" .blank .blank .blank,
            testRow "SQuAT" "TASK-001" "" "Dir" "Ector" "dir@x.com" "100" "001" "100-001" ""
              "Active" .blank .blank .blank ] }
    teams :=
      [ { teamId := "TEAM-001", teamName := "Program Management Team", task := "TASK-001",
          contract := "SQuAT" } ] }

/-- The Scenario A personnel record (the parse of the first row of
`envScenarioA`). -/
def personScenarioA : PersonnelRecord :=
  { upid := "310-003", cpc := "310", hid := "003", task := "TASK-001",
    primaryWorkstream := "Program Management Team", supervisorUpid := "100-001",
    contract := "SQuAT", firstName := "Pat", lastName := "PM", name := "Pat PM",
    email := "pat@x.com", personnelContractStatus := "Active", nodeType := "lead" }

/-- Scenario E: a never-filled vacancy whose supervisor UPID resolves
in the personnel index. -/
def envScenarioE : Env :=
  { sheet :=
      { headers := teamListHeaders
        rows :=
          [ testRow "SQuAT" "TASK-003" "" "Sam" "Super" "sam@x.com" "330" "012" "330-012" ""
              "Active" .blank .blank .blank ] }
    vacants :=
      [ { vacantId := "VAC-3-001", task := "TASK-003", supervisorUpid := "330-012" } ] }

/-- A roster whose highest parseable HID is 999. -/
def envHid999 : Env :=
  { sheet :=
      { headers := teamListHeaders
        rows :=
          [ testRow "C1" "T1" "" "Max" "Hid" "max@x.com" "400" "999" "400-999" ""
              "Active" .blank .blank .blank ] } }

/-- A row with an explicit `person` Node Type and a truthy Portfolio
Leadership flag. -/
def rowExplicitPersonLead : List Cell :=
  testRow "C1" "T1" "" "Lea" "Der" "lea@x.com" "400" "010" "400-010" "" "Active"
    (.str "TRUE") (.str "person") .blank

/-- A small roster for exercising the write paths. -/
def envWrite : Env :=
  { sheet :=
      { headers := teamListHeaders
        rows :=
          [ testRow "C1" "T1" "" "Ann" "Alpha" "ann@x.com" "400" "001" "400-001" ""
              "Active" .blank .blank .blank,
            testRow "C1" "T1" "" "Bob" "Beta" "bob@x.com" "400" "002" "400-002" ""
              "Active" .blank .blank .blank ] } }

/-- An `addPerson` payload with no upid, cpc, or hid. -/
def newPersonInput : PersonInput :=
  { firstName := "New", lastName := "Person" }

/-- A roster containing one departed row still active in the org. -/
def envDeparted : Env :=
  { sheet :=
      { headers := teamListHeaders
        rows :=
          [ testRow "C1" "T1" "" "Dee" "Parted" "dee@x.com" "400" "005" "400-005" ""
              "Departed" .blank .blank (.boolean true) ] } }

/-- The same departed row with Active In Org explicitly false. -/
def envDepartedGone : Env :=
  { sheet :=
      { headers := teamListHeaders
        rows :=
          [ testRow "C1" "T1" "" "Dee" "Parted" "dee@x.com" "400" "005" "400-005" ""
              "Departed" .blank .blank (.boolean false) ] } }

/-- A row with a blank Node Type cell, a truthy leadership flag, and a
CPC whose first digit maps to `person`. -/
def rowLeadBlankType : List Cell :=
  testRow "C1" "T1" "" "Lee" "Dder" "lee@x.com" "400" "011" "400-011" "" "Active"
    (.str "TRUE") .blank .blank

/-! ### The per-read derived views (the locals of `getAllData`,
`OrgCrudService.js:457-470`, lifted to definitions) -/

def personnelOf (env : Env) : List PersonnelRecord :=
  readTeamListRaw env.sheet

def upidMapOf (env : Env) : List (String × PersonnelRecord) :=
  buildUpidMap (personnelOf env)

def teamNodeIdsOf (env : Env) : List String :=
  (teamNodesOf env).map (·.id)

def taskNodeIdsOf (env : Env) : List String :=
  (taskNodesOf env (personnelOf env)).map (·.id)

/-- The unified node `getAllData` builds for a given personnel record. -/
def personNodeOf (env : Env) (p : PersonnelRecord) : Node :=
  mkPersonNode env.teams (upidMapOf env) (teamToTaskOf env.teams) (teamNodeIdsOf env)
    (taskNodeIdsOf env) p

/-- The cell at data row `r`, column `c` of a sheet. -/
def cellAt (s : Sheet) (r c : Nat) : Option Cell :=
  (s.rows.get? r).bind (fun row => row.get? c)

/-- Specification-level reading of `_generateNextHid`'s scan: the
maximum of 0 and every parseable HID on the roster. -/
def maxParsedHid (personnel : List PersonnelRecord) : Int :=
  (personnel.filterMap (fun p => jsParseInt p.hid)).foldl max 0

/-- The unified node derived from the first roster row of `envCycle`
(used to exhibit email lookup on a concrete store). -/
def annNode : Node :=
  ((getAllData envCycle).get? 2).getD rootNode

/-! ## Helper lemmas -/

theorem mem_setAssoc {α : Type} {kv : String × α} {m : List (String × α)} {k : String} {v : α}
    (h : kv ∈ setAssoc m k v) : kv ∈ m ∨ kv = (k, v) := by
  unfold setAssoc at h
  split at h
  · rcases List.mem_map.1 h with ⟨kv0, hkv0, heq⟩
    by_cases hk : (kv0.1 == k) = true
    · right; rw [if_pos hk] at heq; exact heq.symm
    · left; rw [if_neg hk] at heq; exact heq ▸ hkv0
  · rcases List.mem_append.1 h with h1 | h1
    · exact Or.inl h1
    · right; simpa using h1

theorem lookupAssoc_some {α : Type} {m : List (String × α)} {k : String} {w : α}
    (h : lookupAssoc m k = some w) : ∃ kv, kv ∈ m ∧ kv.1 = k ∧ kv.2 = w := by
  unfold lookupAssoc at h
  cases hf : m.find? (fun kv => kv.1 == k) with
  | none => rw [hf] at h; simp at h
  | some kv =>
    rw [hf] at h
    exact ⟨kv, List.mem_of_find?_eq_some hf, by simpa using List.find?_some hf, by simpa using h⟩

/-- Every entry produced by a fold whose step adds at most one entry
either was in the seed or is accounted for by some list element. -/
theorem foldl_step_entry {α β : Type} (step : List (String × α) → β → List (String × α))
    (P : β → String × α → Prop)
    (hstep : ∀ acc b kv, kv ∈ step acc b → kv ∈ acc ∨ P b kv) :
    ∀ (l : List β) (acc : List (String × α)) (kv : String × α),
      kv ∈ l.foldl step acc → kv ∈ acc ∨ ∃ b, b ∈ l ∧ P b kv := by
  intro l
  induction l with
  | nil => intro acc kv h; exact Or.inl (by simpa using h)
  | cons hd tl ih =>
    intro acc kv h
    rw [List.foldl_cons] at h
    rcases ih _ kv h with h1 | ⟨b, hb, hP⟩
    · rcases hstep _ _ _ h1 with h2 | h2
      · exact Or.inl h2
      · exact Or.inr ⟨hd, List.mem_cons_self _ _, h2⟩
    · exact Or.inr ⟨b, List.mem_cons_of_mem _ hb, hP⟩

theorem upidMap_entry {personnel : List PersonnelRecord} {kv : String × PersonnelRecord}
    (h : kv ∈ buildUpidMap personnel) :
    ∃ p, p ∈ personnel ∧ p.upid ≠ "" ∧ kv = (p.upid, p) := by
  unfold buildUpidMap at h
  rcases foldl_step_entry _ (fun p kv => p.upid ≠ "" ∧ kv = (p.upid, p))
      (fun acc b kv hkv => by
        by_cases hc : b.upid ≠ ""
        · rw [if_pos hc] at hkv
          rcases mem_setAssoc hkv with h2 | h2
          · exact Or.inl h2
          · exact Or.inr ⟨hc, h2⟩
        · rw [if_neg hc] at hkv; exact Or.inl hkv)
      personnel [] kv h with h1 | ⟨p, hp, hne, hkv⟩
  · simp at h1
  · exact ⟨p, hp, hne, hkv⟩

theorem lookup_upidMap {personnel : List PersonnelRecord} {u : String} {q : PersonnelRecord}
    (h : lookupAssoc (buildUpidMap personnel) u = some q) :
    q ∈ personnel ∧ q.upid = u ∧ u ≠ "" := by
  rcases lookupAssoc_some h with ⟨kv, hkv, h1, h2⟩
  rcases upidMap_entry hkv with ⟨p, hp, hne, hpkv⟩
  subst hpkv
  cases h1; cases h2
  exact ⟨hp, rfl, hne⟩

theorem lookup_upidMap_empty (personnel : List PersonnelRecord) :
    lookupAssoc (buildUpidMap personnel) "" = none := by
  cases h : lookupAssoc (buildUpidMap personnel) "" with
  | none => rfl
  | some q => exact absurd rfl (lookup_upidMap h).2.2

theorem directors_entry {personnel : List PersonnelRecord} {kv : String × String}
    (h : kv ∈ contractDirectorsOf personnel) :
    ∃ p, p ∈ personnel ∧ p.nodeType = "director" ∧ p.upid = kv.2 ∧ p.upid ≠ "" := by
  unfold contractDirectorsOf at h
  rcases foldl_step_entry _
      (fun p kv => p.nodeType = "director" ∧ p.upid = kv.2 ∧ p.upid ≠ "")
      (fun acc b kv hkv => by
        by_cases hc : (b.nodeType == "director" && decide (b.contract ≠ "") &&
            decide (b.upid ≠ "")) = true
        · rw [if_pos hc] at hkv
          simp only [Bool.and_eq_true, beq_iff_eq, decide_eq_true_eq] at hc
          rcases mem_setAssoc hkv with h2 | h2
          · exact Or.inl h2
          · exact Or.inr ⟨hc.1.1, by rw [h2], hc.2⟩
        · rw [if_neg hc] at hkv; exact Or.inl hkv)
      personnel [] kv h with h1 | ⟨p, hp, hP⟩
  · simp at h1
  · exact ⟨p, hp, hP.1, hP.2.1, hP.2.2⟩

theorem lookup_directors {personnel : List PersonnelRecord} {c d : String}
    (h : lookupAssoc (contractDirectorsOf personnel) c = some d) :
    ∃ p, p ∈ personnel ∧ p.nodeType = "director" ∧ p.upid = d ∧ d ≠ "" := by
  rcases lookupAssoc_some h with ⟨kv, hkv, _, h2⟩
  rcases directors_entry hkv with ⟨p, hp, h3, h4, h5⟩
  exact ⟨p, hp, h3, by rw [h4, h2], by rw [← h2, ← h4]; exact h5⟩

theorem mem_insertUniq_self (l : List String) (x : String) : x ∈ insertUniq l x := by
  unfold insertUniq
  split
  · next h => exact List.mem_of_elem_eq_true h
  · exact List.mem_append_right _ (List.mem_singleton.2 rfl)

theorem mem_insertUniq_of_mem {l : List String} {y : String} (x : String) (h : y ∈ l) :
    y ∈ insertUniq l x := by
  unfold insertUniq
  split
  · exact h
  · exact List.mem_append_left _ h

theorem foldl_mem_mono {β : Type} (step : List String → β → List String)
    (hstep : ∀ acc b y, y ∈ acc → y ∈ step acc b) :
    ∀ (l : List β) (acc : List String) {y : String}, y ∈ acc → y ∈ l.foldl step acc := by
  intro l
  induction l with
  | nil => intro acc y h; simpa using h
  | cons hd tl ih =>
    intro acc y h
    rw [List.foldl_cons]
    exact ih _ (hstep _ _ _ h)

theorem foldl_mem_of_elem {β : Type} (step : List String → β → List String)
    (hstep : ∀ acc b y, y ∈ acc → y ∈ step acc b) {b : β} {x : String}
    (hx : ∀ acc, x ∈ step acc b) :
    ∀ (l : List β) (acc : List String), b ∈ l → x ∈ l.foldl step acc := by
  intro l
  induction l with
  | nil => intro acc h; simp at h
  | cons hd tl ih =>
    intro acc hb
    rw [List.foldl_cons]
    rcases List.mem_cons.1 hb with rfl | hb2
    · exact foldl_mem_mono step hstep tl _ (hx acc)
    · exact ih _ hb2

theorem mem_taskIds_of_team {teams : List TeamMapping} (personnel : List PersonnelRecord)
    {t : TeamMapping} (ht : t ∈ teams) (ha : t.isActive = true) (hx : t.task ≠ "") :
    t.task ∈ taskIdsOf teams personnel := by
  unfold taskIdsOf
  refine foldl_mem_mono _ ?_ personnel _
    (foldl_mem_of_elem _ ?_ ?_ teams [] ht)
  · intro acc b y h
    split
    · exact mem_insertUniq_of_mem _ h
    · exact h
  · intro acc b y h
    split
    · exact mem_insertUniq_of_mem _ h
    · exact h
  · intro acc
    rw [if_pos (by simp [hx, ha])]
    exact mem_insertUniq_self _ _

theorem find?_id_of_nodup {nodes : List Node} (h : (nodes.map (fun n => n.id)).Nodup)
    {n : Node} (hn : n ∈ nodes) : nodes.find? (fun m => m.id == n.id) = some n := by
  induction nodes with
  | nil => cases hn
  | cons hd tl ih =>
    rw [List.map_cons, List.nodup_cons] at h
    rcases List.mem_cons.1 hn with rfl | hn2
    · exact List.find?_cons_of_pos _ (by simp)
    · have hne : hd.id ≠ n.id := by
        intro he
        exact h.1 (he ▸ List.mem_map.2 ⟨n, hn2, rfl⟩)
      rw [List.find?_cons_of_neg _ (by simp [hne])]
      exact ih h.2 hn2

theorem parentOf_mem_nodup {nodes : List Node} (h : (nodes.map (fun n => n.id)).Nodup)
    {n : Node} (hn : n ∈ nodes) : parentOf nodes n.id = n.parentId := by
  unfold parentOf
  rw [find?_id_of_nodup h hn]
  rfl

theorem reaches_root (nodes : List Node) (k : Nat) :
    reachesRootWithin nodes "root" k = true := by
  cases k <;> simp [reachesRootWithin]

theorem reaches_step {nodes : List Node} {id p : String} {k : Nat}
    (hp : parentOf nodes id = some p) (h : reachesRootWithin nodes p k = true) :
    reachesRootWithin nodes id (k + 1) = true := by
  simp [reachesRootWithin, hp, h]

theorem getAllData_eq (env : Env) :
    getAllData env = rootNode ::
      (taskNodesOf env (personnelOf env) ++ teamNodesOf env ++
        (personnelOf env).map (fun p => personNodeOf env p) ++
        env.vacants.map (fun v => mkVacantNode (upidMapOf env) v)) := rfl

theorem root_mem (env : Env) : rootNode ∈ getAllData env := by
  rw [getAllData_eq]; exact List.mem_cons_self _ _

theorem taskNode_mem {env : Env} {n : Node} (h : n ∈ taskNodesOf env (personnelOf env)) :
    n ∈ getAllData env := by
  rw [getAllData_eq]
  exact List.mem_cons_of_mem _ (by simp [List.mem_append, h])

theorem teamNode_mem {env : Env} {n : Node} (h : n ∈ teamNodesOf env) :
    n ∈ getAllData env := by
  rw [getAllData_eq]
  exact List.mem_cons_of_mem _ (by simp [List.mem_append, h])

theorem personNode_mem {env : Env} {p : PersonnelRecord} (h : p ∈ personnelOf env) :
    personNodeOf env p ∈ getAllData env := by
  rw [getAllData_eq]
  exact List.mem_cons_of_mem _ (by
    simp only [List.mem_append]
    exact Or.inl (Or.inr (List.mem_map.2 ⟨p, h, rfl⟩)))

theorem vacantNode_mem {env : Env} {v : VacantPosition} (h : v ∈ env.vacants) :
    mkVacantNode (upidMapOf env) v ∈ getAllData env := by
  rw [getAllData_eq]
  exact List.mem_cons_of_mem _ (by
    simp only [List.mem_append]
    exact Or.inr (List.mem_map.2 ⟨v, h, rfl⟩))

theorem someOrElse_eq {α : Type} (a : α) (f : Unit → Option α) : (some a).orElse f = some a := rfl

theorem noneOrElse_eq {α : Type} (f : Unit → Option α) : (Option.none).orElse f = f () := rfl

theorem resolveStep2a_some {teams : List TeamMapping} {person : PersonnelRecord}
    {teamNodeIds : List String} {s : String}
    (h : resolveStep2a teams person teamNodeIds = some s) :
    teamNodeIds.contains s = true := by
  unfold resolveStep2a at h
  split at h
  · split at h
    · split at h
      · next hc =>
        cases h
        simp only [Bool.and_eq_true, decide_eq_true_eq] at hc
        exact hc.2
      · cases h
    · cases h
  · cases h

theorem resolveStep2b_some {person : PersonnelRecord}
    {upidMap : List (String × PersonnelRecord)} {s : String}
    (h : resolveStep2b person upidMap = some s) :
    s = person.supervisorUpid ∧ (lookupAssoc upidMap s).isSome = true := by
  unfold resolveStep2b at h
  split at h
  · split at h
    · next sup heq =>
      split at h
      · cases h
        exact ⟨rfl, by rw [heq]; rfl⟩
      · cases h
    · cases h
  · cases h

theorem resolveStep2c_some {person : PersonnelRecord} {taskNodeIds : List String} {s : String}
    (h : resolveStep2c person taskNodeIds = some s) :
    taskNodeIds.contains s = true := by
  unfold resolveStep2c at h
  split at h
  · next hc =>
    cases h
    simp only [Bool.and_eq_true, decide_eq_true_eq] at hc
    exact hc.2
  · cases h

theorem resolveStep3_some {person : PersonnelRecord}
    {upidMap : List (String × PersonnelRecord)} {s : String}
    (h : resolveStep3 person upidMap = some s) :
    s = person.supervisorUpid ∧ (lookupAssoc upidMap s).isSome = true := by
  unfold resolveStep3 at h
  split at h
  · next hc =>
    cases h
    simp only [Bool.and_eq_true, decide_eq_true_eq] at hc
    exact ⟨rfl, hc.2⟩
  · cases h

theorem resolveParentId_director {teams : List TeamMapping} {person : PersonnelRecord}
    {upidMap : List (String × PersonnelRecord)} {teamToTask : List (String × String)}
    (teamNodeIds taskNodeIds : List String)
    (h : person.nodeType = "director" ∨ person.nodeType = "deputy") :
    resolveParentId teams person upidMap teamToTask teamNodeIds taskNodeIds = "root" := by
  unfold resolveParentId
  rcases h with h | h <;> simp [h]

/-- Where the parent cascade can land: every returned id is the root,
a team-node id in the supplied set, a task-node id in the supplied set,
or a key of the UPID index. -/
theorem resolveParentId_cases (teams : List TeamMapping) (person : PersonnelRecord)
    (upidMap : List (String × PersonnelRecord)) (teamToTask : List (String × String))
    (teamNodeIds taskNodeIds : List String) :
    resolveParentId teams person upidMap teamToTask teamNodeIds taskNodeIds = "root"
    ∨ teamNodeIds.contains
        (resolveParentId teams person upidMap teamToTask teamNodeIds taskNodeIds) = true
    ∨ taskNodeIds.contains
        (resolveParentId teams person upidMap teamToTask teamNodeIds taskNodeIds) = true
    ∨ (lookupAssoc upidMap
        (resolveParentId teams person upidMap teamToTask teamNodeIds taskNodeIds)).isSome
        = true := by
  unfold resolveParentId
  split
  · exact Or.inl rfl
  · cases h2a : resolveStep2a teams person teamNodeIds with
    | some s =>
      simp only [someOrElse_eq, Option.getD_some]
      exact Or.inr (Or.inl (resolveStep2a_some h2a))
    | none =>
      cases h2b : resolveStep2b person upidMap with
      | some s =>
        simp only [someOrElse_eq, noneOrElse_eq, Option.getD_some]
        exact Or.inr (Or.inr (Or.inr (resolveStep2b_some h2b).2))
      | none =>
        cases h2c : resolveStep2c person taskNodeIds with
        | some s =>
          simp only [someOrElse_eq, noneOrElse_eq, Option.getD_some]
          exact Or.inr (Or.inr (Or.inl (resolveStep2c_some h2c)))
        | none =>
          cases h3 : resolveStep3 person upidMap with
          | some s =>
            simp only [someOrElse_eq, noneOrElse_eq, Option.getD_some]
            exact Or.inr (Or.inr (Or.inr (resolveStep3_some h3).2))
          | none =>
            simp only [noneOrElse_eq, Option.getD_none]
            exact Or.inl trivial

/-- In a `getAllData` read, whatever the cascade returns is the id of a
node in the same result list. -/
theorem resolved_parent_exists (env : Env) (p : PersonnelRecord) :
    ∃ m ∈ getAllData env, m.id =
      resolveParentId env.teams p (upidMapOf env) (teamToTaskOf env.teams)
        (teamNodeIdsOf env) (taskNodeIdsOf env) := by
  rcases resolveParentId_cases env.teams p (upidMapOf env) (teamToTaskOf env.teams)
      (teamNodeIdsOf env) (taskNodeIdsOf env) with h | h | h | h
  · exact ⟨rootNode, root_mem env, h.symm⟩
  · have hr := List.mem_of_elem_eq_true h
    rcases List.mem_map.1 hr with ⟨tn, htn, hid⟩
    exact ⟨tn, teamNode_mem htn, hid⟩
  · have hr := List.mem_of_elem_eq_true h
    rcases List.mem_map.1 hr with ⟨tn, htn, hid⟩
    exact ⟨tn, taskNode_mem htn, hid⟩
  · rcases Option.isSome_iff_exists.1 h with ⟨q, hq⟩
    rcases lookup_upidMap hq with ⟨hqmem, hqupid, hrne⟩
    refine ⟨personNodeOf env q, personNode_mem hqmem, ?_⟩
    have hqne : q.upid ≠ "" := by rw [hqupid]; exact hrne
    simp only [personNodeOf, mkPersonNode]
    rw [if_pos hqne]
    exact hqupid

theorem reach_task {env : Env} (hnd : ((getAllData env).map (fun n => n.id)).Nodup)
    {tid : String} (htid : tid ∈ taskIdsOf env.teams (personnelOf env)) :
    reachesRootWithin (getAllData env) ("task:" ++ tid) 2 = true := by
  have hmem : mkTaskNode env.taskMeta (contractDirectorsOf (personnelOf env)) tid
      ∈ getAllData env :=
    taskNode_mem (List.mem_map.2 ⟨tid, htid, rfl⟩)
  have hpar := parentOf_mem_nodup hnd hmem
  cases hlk : lookupAssoc (contractDirectorsOf (personnelOf env))
      (metaContract (lookupAssoc env.taskMeta tid)) with
  | none =>
    refine reaches_step (p := "root") ?_ (reaches_root _ 1)
    rw [show ("task:" ++ tid) =
      (mkTaskNode env.taskMeta (contractDirectorsOf (personnelOf env)) tid).id from rfl, hpar]
    simp [mkTaskNode, hlk]
  | some d =>
    rcases lookup_directors hlk with ⟨q, hq, hqd, hqu, hdne⟩
    have hqne : q.upid ≠ "" := by rw [hqu]; exact hdne
    have hqid : (personNodeOf env q).id = d := by
      simp only [personNodeOf, mkPersonNode]
      rw [if_pos hqne]
      exact hqu
    have hq2 : parentOf (getAllData env) d = some "root" := by
      rw [← hqid, parentOf_mem_nodup hnd (personNode_mem hq)]
      simp [personNodeOf, mkPersonNode, resolveParentId_director _ _ (Or.inl hqd)]
    refine reaches_step (p := d) ?_ (reaches_step hq2 (reaches_root _ 0))
    rw [show ("task:" ++ tid) =
      (mkTaskNode env.taskMeta (contractDirectorsOf (personnelOf env)) tid).id from rfl, hpar]
    simp [mkTaskNode, hlk]

theorem reach_team {env : Env} (hnd : ((getAllData env).map (fun n => n.id)).Nodup)
    {t : TeamMapping} (ht : t ∈ env.teams) (ha : t.isActive = true) (hid : t.teamId ≠ "")
    (htask : t.task ≠ "") :
    reachesRootWithin (getAllData env) ("team:" ++ t.teamId) 3 = true := by
  have hmem : mkTeamNode t ∈ getAllData env :=
    teamNode_mem (List.mem_filterMap.2 ⟨t, ht, by
      rw [if_pos (by simp [hid, ha])]⟩)
  refine reaches_step (p := "task:" ++ t.task) ?_
    (reach_task hnd (mem_taskIds_of_team (personnelOf env) ht ha htask))
  rw [show ("team:" ++ t.teamId) = (mkTeamNode t).id from rfl, parentOf_mem_nodup hnd hmem]
  rfl

theorem reach_director {env : Env} (hnd : ((getAllData env).map (fun n => n.id)).Nodup)
    {p : PersonnelRecord} (hp : p ∈ personnelOf env)
    (hd : p.nodeType = "director" ∨ p.nodeType = "deputy") :
    reachesRootWithin (getAllData env) (personNodeOf env p).id 1 = true := by
  refine reaches_step (p := "root") ?_ (reaches_root _ 0)
  rw [parentOf_mem_nodup hnd (personNode_mem hp)]
  simp [personNodeOf, mkPersonNode, resolveParentId_director _ _ hd]

/-! ## Claim C1 -/

/-- C1 counterexample: the claim asserts that following parent pointers
from any node of a successful `getAllData()` reaches the root within at
most 3 hops and that no node is its own ancestor.  In the store
`envCycle`, two active records on the same task name each other as
supervisor, rule 2b links them into a 2-cycle: node `401-001` is in
the result, is its own ancestor after 2 hops, and never reaches the
root (not within 3 hops, not within 10). -/
theorem c1_cycle_counterexample :
    ((getAllData envCycle).map (fun n => n.id)).contains "401-001" = true
    ∧ ancestorAfter (getAllData envCycle) "401-001" 2 = some "401-001"
    ∧ reachesRootWithin (getAllData envCycle) "401-001" 3 = false
    ∧ reachesRootWithin (getAllData envCycle) "401-001" 10 = false := by decide

/-- C1 (amended): in a `getAllData()` result whose node ids are
pairwise distinct, the bounded-hop guarantee holds for the structural
skeleton — the root trivially, every task node within 2 hops (task →
director → root), every team node derived from an active mapping with
non-empty task within 3 hops (team → task → director → root), and
every director/deputy node within 1 hop.  Personnel placed by the
same-task supervisor rule are not bounded: supervisor chains can be
arbitrarily long, and mutual same-task supervision creates cycles
(see the counterexample), so neither the unconditional 3-hop bound nor
acyclicity holds. -/
theorem c1_structural_hop_bound (env : Env)
    (hnd : ((getAllData env).map (fun n => n.id)).Nodup) :
    (∀ k, reachesRootWithin (getAllData env) "root" k = true)
    ∧ (∀ tid ∈ taskIdsOf env.teams (personnelOf env),
        reachesRootWithin (getAllData env) ("task:" ++ tid) 2 = true)
    ∧ (∀ t ∈ env.teams, t.isActive = true → t.teamId ≠ "" → t.task ≠ "" →
        reachesRootWithin (getAllData env) ("team:" ++ t.teamId) 3 = true)
    ∧ (∀ p ∈ personnelOf env, (p.nodeType = "director" ∨ p.nodeType = "deputy") →
        reachesRootWithin (getAllData env) (personNodeOf env p).id 1 = true) :=
  ⟨fun k => reaches_root _ k,
   fun _ htid => reach_task hnd htid,
   fun _ ht ha hid htask => reach_team hnd ht ha hid htask,
   fun _ hp hd => reach_director hnd hp hd⟩

/-- C1 witness: the structural bound evaluated on the concrete store
`envCycle` (whose ids are pairwise distinct). -/
theorem c1_structural_hop_bound_witness :
    reachesRootWithin (getAllData envCycle) "task:T1" 2 = true
    ∧ reachesRootWithin (getAllData envCycle) "root" 5 = true := by
  have h := c1_structural_hop_bound envCycle (by decide)
  exact ⟨by simpa using h.2.1 "T1" (by decide), h.1 5⟩

/-! ## Claim C2 -/

/-- C2 counterexample: the claim asserts that every non-root node's
`parentId` is the id of a node in the same result set, explicitly
including never-filled vacancies whose team/task has no structural
node, and that failed resolution always falls back to the root.  In
`envVacDangling` the only vacancy resolves to `task:TASK-9`, no node
with that id exists in the result, and the assigned parent is not the
root. -/
theorem c2_dangling_counterexample :
    (getAllData envVacDangling).any (fun n =>
        n.id == "VAC-9-001" && n.parentId == some "task:TASK-9") = true
    ∧ ((getAllData envVacDangling).map (fun n => n.id)).contains "task:TASK-9" = false := by
  decide

/-- C2 (amended): connectivity holds for everything except never-filled
vacancies with a dangling structural fallback — every task node's
parent is in the result (director record or root), every team node
derived from an active mapping with a teamId and a non-empty task has
its task node in the result, every personnel record's resolved parent
is the id of a node in the result (the cascade only returns checked
team/task ids, resolvable supervisor UPIDs, or the root fallback), and
a never-filled vacancy's parent is in the result whenever its
supervisor UPID resolves in the personnel index or it has neither team
nor task (root fallback).  A vacancy whose fallback team/task has no
structural node dangles (see the counterexample). -/
theorem c2_connectivity (env : Env) :
    (∀ n ∈ taskNodesOf env (personnelOf env),
      ∃ m ∈ getAllData env, some m.id = n.parentId)
    ∧ (∀ t ∈ env.teams, t.isActive = true → t.teamId ≠ "" → t.task ≠ "" →
        ∃ m ∈ getAllData env, some m.id = (mkTeamNode t).parentId)
    ∧ (∀ p : PersonnelRecord,
        ∃ m ∈ getAllData env, m.id =
          resolveParentId env.teams p (upidMapOf env) (teamToTaskOf env.teams)
            (teamNodeIdsOf env) (taskNodeIdsOf env))
    ∧ (∀ v ∈ env.vacants,
        ((lookupAssoc (upidMapOf env) v.supervisorUpid).isSome = true
          ∨ (v.team = "" ∧ v.task = "")) →
        ∃ m ∈ getAllData env, some m.id = (mkVacantNode (upidMapOf env) v).parentId) := by
  refine ⟨?_, ?_, ?_, ?_⟩
  · intro n hn
    rcases List.mem_map.1 hn with ⟨tid, htid, hmk⟩
    cases hlk : lookupAssoc (contractDirectorsOf (personnelOf env))
        (metaContract (lookupAssoc env.taskMeta tid)) with
    | none =>
      refine ⟨rootNode, root_mem env, ?_⟩
      rw [← hmk]
      simp [mkTaskNode, hlk, rootNode]
    | some d =>
      rcases lookup_directors hlk with ⟨q, hq, _, hqu, hdne⟩
      have hqne : q.upid ≠ "" := by rw [hqu]; exact hdne
      refine ⟨personNodeOf env q, personNode_mem hq, ?_⟩
      rw [← hmk]
      have hid : (personNodeOf env q).id = d := by
        simp only [personNodeOf, mkPersonNode]
        rw [if_pos hqne]
        exact hqu
      rw [hid]
      simp [mkTaskNode, hlk]
  · intro t ht ha hid htask
    have htid := mem_taskIds_of_team (personnelOf env) ht ha htask
    refine ⟨mkTaskNode env.taskMeta (contractDirectorsOf (personnelOf env)) t.task,
      taskNode_mem (List.mem_map.2 ⟨t.task, htid, rfl⟩), rfl⟩
  · intro p
    exact resolved_parent_exists env p
  · intro v _ hres
    rcases hres with hs | ⟨hteam, htask⟩
    · rcases Option.isSome_iff_exists.1 hs with ⟨q, hq⟩
      rcases lookup_upidMap hq with ⟨hqmem, hqupid, hsne⟩
      have hqne : q.upid ≠ "" := by rw [hqupid]; exact hsne
      refine ⟨personNodeOf env q, personNode_mem hqmem, ?_⟩
      have hid : (personNodeOf env q).id = v.supervisorUpid := by
        simp only [personNodeOf, mkPersonNode]
        rw [if_pos hqne]
        exact hqupid
      rw [hid]
      simp [mkVacantNode, vacantParentOf, hsne, hs]
    · by_cases hs : (v.supervisorUpid ≠ "" ∧
          (lookupAssoc (upidMapOf env) v.supervisorUpid).isSome = true)
      · rcases Option.isSome_iff_exists.1 hs.2 with ⟨q, hq⟩
        rcases lookup_upidMap hq with ⟨hqmem, hqupid, hsne⟩
        have hqne : q.upid ≠ "" := by rw [hqupid]; exact hsne
        refine ⟨personNodeOf env q, personNode_mem hqmem, ?_⟩
        have hid : (personNodeOf env q).id = v.supervisorUpid := by
          simp only [personNodeOf, mkPersonNode]
          rw [if_pos hqne]
          exact hqupid
        rw [hid]
        simp [mkVacantNode, vacantParentOf, hs.1, hs.2]
      · refine ⟨rootNode, root_mem env, ?_⟩
        simp only [mkVacantNode, vacantParentOf]
        rw [if_neg (by
          intro hc
          simp only [Bool.and_eq_true, decide_eq_true_eq] at hc
          exact hs ⟨hc.1, hc.2⟩)]
        rw [if_neg (by simp [hteam]), if_neg (by simp [htask])]
        rfl

/-- C2 witness: the amended connectivity statement evaluated on the
Scenario E store — the vacancy whose supervisor resolves has its
parent present in the result. -/
theorem c2_connectivity_witness :
    ∃ m ∈ getAllData envScenarioE, some m.id =
      (mkVacantNode (upidMapOf envScenarioE)
        { vacantId := "VAC-3-001", task := "TASK-003", supervisorUpid := "330-012" }).parentId := by
  refine (c2_connectivity envScenarioE).2.2.2
    { vacantId := "VAC-3-001", task := "TASK-003", supervisorUpid := "330-012" }
    (by decide) (Or.inl (by decide))

/-! ## Claim C3 -/

/-- A Departed row whose Active In Org cell is boolean true survives
the reader with its nodeType forced to `vacant`, whatever its explicit
or CPC-derived type would have been. -/
theorem processRow_departed_active {row : List Cell}
    (hst : rowStatus row = "Departed")
    (hactive : rowActiveCell row = some (.boolean true))
    (hy : truthyOpt (rowUpidCell row) = true ∨ truthyOpt (rowEmailCell row) = true) :
    ∃ r, processRow teamListHeaders row = some r ∧ r.nodeType = "vacant"
      ∧ r.upid = rowUpidStr row ∧ r.email = rowEmailStr row
      ∧ r.employeeCode = rowEmployeeCodeStr row := by
  simp only [rowStatus] at hst
  simp only [rowActiveCell] at hactive
  simp only [rowUpidCell, rowEmailCell] at hy
  have hg1 : (!truthyOpt (cellAtIdx row (colIndex teamListHeaders "Unique Personnel ID (UPID)"))
      && !truthyOpt (cellAtIdx row (colIndex teamListHeaders "Email"))) = false := by
    rcases hy with h | h <;> simp [h]
  unfold processRow
  simp only [hg1, hst, hactive]
  simp only [Bool.false_eq_true, if_false]
  refine ⟨_, rfl, ?_, rfl, rfl, rfl⟩
  simp only []
  rw [if_pos (by decide)]

/-- A Departed row whose Active In Org cell is boolean false is
excluded by the reader. -/
theorem processRow_departed_inactive {row : List Cell}
    (hst : rowStatus row = "Departed")
    (hactive : rowActiveCell row = some (.boolean false)) :
    processRow teamListHeaders row = none := by
  simp only [rowStatus] at hst
  simp only [rowActiveCell] at hactive
  unfold processRow
  simp only [hst, hactive]
  split
  · rfl
  · rw [if_pos (by decide)]

/-- `getAllData` depends on the sheet only through the parsed roster. -/
theorem getAllData_congr (env e2 : Env) (ht : e2.teams = env.teams)
    (hm : e2.taskMeta = env.taskMeta) (hv : e2.vacants = env.vacants)
    (hp : personnelOf e2 = personnelOf env) : getAllData e2 = getAllData env := by
  simp only [getAllData_eq, taskNodesOf, teamNodesOf, personNodeOf, upidMapOf,
    teamNodeIdsOf, taskNodeIdsOf, hp, ht, hm, hv]

/-- C3: for a Team List row with Personnel Contract Status `Departed`
(and an identity — a truthy UPID or Email cell, the reader's blank-row
criterion), if Active In Org is true the row appears in `getAllData()`
as a node of type `vacant` carrying the row's derived id and email; if
Active In Org is false the row contributes nothing — the result is the
same as for the store without that row. -/
theorem c3_vacancy_classification (env : Env) (l1 l2 : List (List Cell)) (row : List Cell)
    (hh : env.sheet.headers = teamListHeaders)
    (hr : env.sheet.rows = l1 ++ row :: l2)
    (hst : rowStatus row = "Departed") :
    ((rowActiveCell row = some (.boolean true)) →
      (truthyOpt (rowUpidCell row) = true ∨ truthyOpt (rowEmailCell row) = true) →
      ∃ n ∈ getAllData env, n.type = "vacant" ∧ n.id = rowDerivedId row
        ∧ n.email = rowEmailStr row)
    ∧ ((rowActiveCell row = some (.boolean false)) →
      getAllData env = getAllData { env with sheet := { env.sheet with rows := l1 ++ l2 } }) := by
  constructor
  · intro hactive hy
    rcases processRow_departed_active hst hactive hy with ⟨r, hpr, hnt, hup, hem, hec⟩
    have hmem : r ∈ personnelOf env := by
      unfold personnelOf readTeamListRaw
      rw [hh, hr]
      exact List.mem_filterMap.2 ⟨row, by simp, hpr⟩
    refine ⟨personNodeOf env r, personNode_mem hmem, hnt, ?_, hem⟩
    simp only [personNodeOf, mkPersonNode, rowDerivedId, hup, hem, hec]
  · intro hactive
    have hnone := processRow_departed_inactive hst hactive
    have hpers : personnelOf { env with sheet := { env.sheet with rows := l1 ++ l2 } }
        = personnelOf env := by
      unfold personnelOf readTeamListRaw
      rw [hh, hr]
      simp [List.filterMap_append, List.filterMap_cons, hnone]
    refine (getAllData_congr _ _ ?_ ?_ ?_ hpers).symm <;> rfl

/-- C3 witness: the classification evaluated on the concrete departed
rows of `envDeparted` (still active in org → vacant node) and
`envDepartedGone` (inactive → absent). -/
theorem c3_vacancy_classification_witness :
    (getAllData envDeparted).any (fun n => n.type == "vacant" && n.id == "400-005") = true
    ∧ getAllData envDepartedGone =
        getAllData { envDepartedGone with
          sheet := { envDepartedGone.sheet with rows := [] } } := by
  constructor
  · obtain ⟨n, hn, h1, h2, _⟩ := (c3_vacancy_classification envDeparted [] []
      (testRow "C1" "T1" "" "Dee" "Parted" "dee@x.com" "400" "005" "400-005" ""
        "Departed" .blank .blank (.boolean true)) rfl rfl (by decide)).1
      (by decide) (Or.inl (by decide))
    have h2b : n.id = "400-005" := by rw [h2]; decide
    exact List.any_eq_true.2 ⟨n, hn, by simp [h1, h2b]⟩
  · have h := (c3_vacancy_classification envDepartedGone [] []
      (testRow "C1" "T1" "" "Dee" "Parted" "dee@x.com" "400" "005" "400-005" ""
        "Departed" .blank .blank (.boolean false)) rfl rfl (by decide)).2 (by decide)
    simpa using h

/-! ## Claim C4 -/

/-- C4: team-match precedence in the person cascade — for a record
that is not a director/deputy, has a non-empty task and a workstream
matched by an active team mapping on the same task (the mapping the
source's `find` locates) with a non-empty teamId, `_resolveParentId`
returns that team's node id, whatever the record's supervisor fields
hold (in particular even when the supervisor UPID resolves to a record
on the same task). -/
theorem c4_team_match_precedence (env : Env) (p : PersonnelRecord) (t : TeamMapping)
    (hnd1 : p.nodeType ≠ "director") (hnd2 : p.nodeType ≠ "deputy")
    (htask : p.task ≠ "") (hpw : p.primaryWorkstream ≠ "")
    (hfind : env.teams.find? (fun t =>
        t.teamName == p.primaryWorkstream && t.task == p.task && t.isActive) = some t)
    (htid : t.teamId ≠ "") :
    resolveParentId env.teams p (upidMapOf env) (teamToTaskOf env.teams)
      (teamNodeIdsOf env) (taskNodeIdsOf env) = "team:" ++ t.teamId := by
  have htmem : t ∈ env.teams := List.mem_of_find?_eq_some hfind
  have hpred := List.find?_some hfind
  simp only [Bool.and_eq_true, beq_iff_eq] at hpred
  have hmemId : "team:" ++ t.teamId ∈ teamNodeIdsOf env := by
    unfold teamNodeIdsOf teamNodesOf
    exact List.mem_map.2
      ⟨mkTeamNode t,
       List.mem_filterMap.2 ⟨t, htmem, by rw [if_pos (by simp [htid, hpred.2])]⟩, rfl⟩
  have h2a : resolveStep2a env.teams p (teamNodeIdsOf env) = some ("team:" ++ t.teamId) := by
    unfold resolveStep2a
    rw [if_pos (by simp [htask, hpw]), hfind]
    dsimp only
    rw [if_pos (by simp [htid, hmemId])]
  unfold resolveParentId
  rw [if_neg (by simp [hnd1, hnd2])]
  simp only [h2a, someOrElse_eq, Option.getD_some]

/-- C4 witness: Scenario A — the team match fires even though the
supervisor UPID `100-001` resolves to an existing record on the same
task. -/
theorem c4_team_match_precedence_witness :
    resolveParentId envScenarioA.teams personScenarioA (upidMapOf envScenarioA)
      (teamToTaskOf envScenarioA.teams) (teamNodeIdsOf envScenarioA)
      (taskNodeIdsOf envScenarioA) = "team:TEAM-001"
    ∧ personScenarioA.supervisorUpid = "100-001"
    ∧ (lookupAssoc (upidMapOf envScenarioA) "100-001").isSome = true := by
  refine ⟨?_, rfl, by decide⟩
  have h := c4_team_match_precedence envScenarioA personScenarioA
    { teamId := "TEAM-001", teamName := "Program Management Team", task := "TASK-001",
      contract := "SQuAT" }
    (by decide) (by decide) (by decide) (by decide) (by decide) (by decide)
  exact h.trans (by decide)

/-! ## Claim C5 -/

/-- C5: the parent assigned to a never-filled vacancy in `getAllData()`
is its supervisor UPID when that UPID is present in the personnel UPID
index, else its team node when it has a team, else its task node when
it has a task, else the root. -/
theorem c5_vacancy_parent (env : Env) (v : VacantPosition) (hv : v ∈ env.vacants) :
    ∃ n ∈ getAllData env, n.id = v.vacantId ∧ n.parentId = some (
      if (lookupAssoc (upidMapOf env) v.supervisorUpid).isSome then v.supervisorUpid
      else if v.team ≠ "" then "team:" ++ v.team
      else if v.task ≠ "" then "task:" ++ v.task
      else "root") := by
  refine ⟨mkVacantNode (upidMapOf env) v, vacantNode_mem hv, rfl, ?_⟩
  simp only [mkVacantNode]
  congr 1
  unfold vacantParentOf
  by_cases hs : (lookupAssoc (upidMapOf env) v.supervisorUpid).isSome = true
  · have hne : v.supervisorUpid ≠ "" := by
      rcases Option.isSome_iff_exists.1 hs with ⟨q, hq⟩
      exact (lookup_upidMap hq).2.2
    rw [if_pos (by simp [hne, hs]), if_pos hs]
  · rw [if_neg (by simp [hs]), if_neg hs]

/-- C5 witness: Scenario E — the vacancy whose supervisor UPID
`330-012` resolves gets parent `330-012`. -/
theorem c5_vacancy_parent_witness :
    ∃ n ∈ getAllData envScenarioE, n.id = "VAC-3-001" ∧ n.parentId = some "330-012" := by
  obtain ⟨n, hn, h1, h2⟩ := c5_vacancy_parent envScenarioE
    { vacantId := "VAC-3-001", task := "TASK-003", supervisorUpid := "330-012" } (by decide)
  exact ⟨n, hn, h1, by rw [h2]; decide⟩

/-! ## Claim C6 -/

/-- C6 counterexample: the claim asserts that a row whose derived
nodeType is `person` (explicit cell, CPC map, or default) with a truthy
Portfolio Leadership flag ends up `director`.  `rowExplicitPersonLead`
has Node Type cell `person` and leadership flag `TRUE`, yet the reader
leaves it `person`: the override only runs when the explicit Node Type
cell is blank. -/
theorem c6_leadership_counterexample :
    (processRow teamListHeaders rowExplicitPersonLead).map (fun r => r.nodeType) = some "person"
    ∧ some "person" ≠ some "director" := ⟨by decide, by decide⟩

/-- C6 (amended): the leadership override fires only on the
CPC-derivation branch — for a non-blank-identity row whose Node Type
cell is blank, whose CPC-derived type is `person`, whose Portfolio
Leadership cell is true/`TRUE`/`Yes`, and whose status is not
`Departed`, the resulting nodeType is `director`; a row with an
explicit `person` Node Type cell is never promoted (see the
counterexample). -/
theorem c6_leadership_override (row : List Cell)
    (hy : truthyOpt (rowUpidCell row) = true ∨ truthyOpt (rowEmailCell row) = true)
    (hnt : rowNodeTypeStr row = "")
    (hlead : rowLeadCell row = some (.boolean true) ∨ rowLeadCell row = some (.str "TRUE")
      ∨ rowLeadCell row = some (.str "Yes"))
    (hcpc : derivedCpcType (rowCpcStr row) = "person")
    (hst : rowStatus row ≠ "Departed") :
    ∃ r, processRow teamListHeaders row = some r ∧ r.nodeType = "director" := by
  simp only [rowNodeTypeStr] at hnt
  simp only [rowLeadCell] at hlead
  simp only [rowCpcStr] at hcpc
  simp only [rowStatus] at hst
  simp only [rowUpidCell, rowEmailCell] at hy
  have hg1 : (!truthyOpt (cellAtIdx row (colIndex teamListHeaders "Unique Personnel ID (UPID)"))
      && !truthyOpt (cellAtIdx row (colIndex teamListHeaders "Email"))) = false := by
    rcases hy with h | h <;> simp [h]
  have hst2 : (jsTrim (cellStrOrEmptyAt row
      (colIndex teamListHeaders "Personnel Contract Status")) == "Departed") = false := by
    simp [hst]
  have hlt : (cellAtIdx row (colIndex teamListHeaders "Portfolio Leadership?")
        == some (Cell.boolean true)
      || cellAtIdx row (colIndex teamListHeaders "Portfolio Leadership?")
        == some (Cell.str "TRUE")
      || cellAtIdx row (colIndex teamListHeaders "Portfolio Leadership?")
        == some (Cell.str "Yes")) = true := by
    rcases hlead with h | h | h <;> simp [h]
  unfold processRow
  simp only [hg1, Bool.false_eq_true, if_false, hst2, Bool.false_and, hnt, hcpc, hlt]
  refine ⟨_, rfl, ?_⟩
  simp only []
  decide

/-- C6 witness: a concrete row with a blank Node Type cell, leadership
flag `TRUE`, CPC `400`, status `Active` is promoted to `director`. -/
theorem c6_leadership_override_witness :
    (processRow teamListHeaders rowLeadBlankType).map (fun r => r.nodeType)
      = some "director" := by
  obtain ⟨r, h1, h2⟩ := c6_leadership_override rowLeadBlankType (Or.inl (by decide))
    (by decide) (Or.inr (Or.inl (by decide))) (by decide) (by decide)
  simp [h1, h2]

/-! ## Claim C7 -/

/-- C7 counterexample: the claim asserts the generated HID is exactly 3
digits long.  With an existing parseable HID of 999 the generator
returns `"1000"` — `padStart(3, '0')` never truncates — so the
"exactly 3 digits" conjunct fails. -/
theorem c7_hid_counterexample :
    generateNextHid envHid999.sheet = "1000" ∧ ("1000" : String).length ≠ 3 :=
  ⟨by decide, by decide⟩

theorem ifgt_eq_max (a n : Int) : (if n > a then n else a) = max a n := by
  rcases le_or_lt n a with h | h
  · rw [if_neg (not_lt.2 h), max_eq_left h]
  · rw [if_pos h, max_eq_right h.le]

theorem foldl_hid_max (l : List PersonnelRecord) :
    ∀ a : Int,
      l.foldl (fun m p =>
        match jsParseInt p.hid with
        | some num => if num > m then num else m
        | none => m) a
      = (l.filterMap (fun p => jsParseInt p.hid)).foldl max a := by
  induction l with
  | nil => intro a; rfl
  | cons hd tl ih =>
    intro a
    rw [List.foldl_cons, List.filterMap_cons]
    cases h : jsParseInt hd.hid with
    | none => exact ih a
    | some n =>
      rw [List.foldl_cons, ih (if n > a then n else a), ifgt_eq_max]

/-- The scan of `_generateNextHid` computes the maximum of 0 and all
parseable HIDs, plus one, zero-padded to width 3. -/
theorem generateNextHid_spec (sheet : Sheet) :
    generateNextHid sheet
      = padStartZero 3 (toString (maxParsedHid (readTeamListRaw sheet) + 1)) := by
  unfold generateNextHid maxParsedHid
  simp only [foldl_hid_max]

theorem padStartZero_le_length (s : String) : 3 ≤ (padStartZero 3 s).length := by
  unfold padStartZero
  split
  · next h => exact h
  · rw [String.length_append]
    simp only [List.length_asString, List.length_replicate]
    omega

/-- C7 (amended): `_generateNextHid()` returns the decimal string of
(the maximum of 0 and every parseable existing HID value) + 1,
left-zero-padded to width 3 — at least 3 digits, longer when the
successor needs more (see the counterexample); and `addPerson` without
an explicit upid assigns `upid = cpc + '-' + hid`, with cpc defaulting
to `'400'` and hid defaulting to the generated HID (an explicit input
hid wins over the generated one). -/
theorem c7_hid_generation (env : Env) (person : PersonInput) (h0 : person.upid = "") :
    generateNextHid env.sheet
        = padStartZero 3 (toString (maxParsedHid (personnelOf env) + 1))
    ∧ 3 ≤ (generateNextHid env.sheet).length
    ∧ ∃ s2, addPerson true env person =
        .ok (okResult ((if person.cpc ≠ "" then person.cpc else "400") ++ "-" ++
          (if person.hid ≠ "" then person.hid else generateNextHid env.sheet)), s2) := by
  refine ⟨generateNextHid_spec env.sheet, padStartZero_le_length _, ?_⟩
  have h2 : ∀ q : PersonInput, (splitNameInput q).upid = q.upid := by
    intro q; unfold splitNameInput; split <;> rfl
  have h3 : ∀ q : PersonInput, (mapTitleInput q).upid = q.upid := by
    intro q; unfold mapTitleInput; split <;> rfl
  have h4 : ∀ q : PersonInput, (mapReportsToInput q).upid = q.upid := by
    intro q; unfold mapReportsToInput; split <;> rfl
  have h1 : (assignUpid env.sheet person).upid
      = (if person.cpc ≠ "" then person.cpc else "400") ++ "-" ++
        (if person.hid ≠ "" then person.hid else generateNextHid env.sheet) := by
    unfold assignUpid
    rw [if_pos (by simp [h0])]
  refine ⟨{ env.sheet with rows := env.sheet.rows ++
    [buildTeamListRow (mapReportsToInput (mapTitleInput
      (splitNameInput (assignUpid env.sheet person))))] }, ?_⟩
  unfold addPerson
  rw [if_neg (by simp)]
  dsimp only
  unfold okResult
  rw [h4, h3, h2, h1]

/-- C7 witness: the generation contract evaluated on the concrete
roster `envWrite` (existing HIDs 001, 002) and a payload with no upid,
cpc, or hid. -/
theorem c7_hid_generation_witness :
    generateNextHid envWrite.sheet
        = padStartZero 3 (toString (maxParsedHid (personnelOf envWrite) + 1))
    ∧ 3 ≤ (generateNextHid envWrite.sheet).length
    ∧ ∃ s2, addPerson true envWrite newPersonInput
        = .ok (okResult ((if newPersonInput.cpc ≠ "" then newPersonInput.cpc else "400")
            ++ "-" ++
            (if newPersonInput.hid ≠ "" then newPersonInput.hid
              else generateNextHid envWrite.sheet)), s2) :=
  c7_hid_generation envWrite newPersonInput rfl

/-! ## Claim C8 -/

/-- When no data row's stringified, trimmed UPID cell matches the
trimmed id, the row scan comes up empty. -/
theorem findRowIdx_none {headers : List String} {rows : List (List Cell)} {id : String}
    (h : ∀ row ∈ rows,
      jsTrim (cellStrAt row (colIndex headers "Unique Personnel ID (UPID)")) ≠ jsTrim id) :
    findRowIdx headers rows id = none := by
  unfold findRowIdx
  refine List.find?_eq_none.2 ?_
  intro i hi
  cases hrow : rows.get? i with
  | none => simp [hrow]
  | some row => simp [hrow, h row (List.get?_mem hrow)]

/-- C8: with the permission gate granted, `updatePerson` and
`deletePerson` (on a non-`VAC-` id) against an id that matches no Team
List row return the structured not-found failure and leave the sheet
untouched — no exception escapes and no cell is written. -/
theorem c8_write_not_found (env : Env) (id : String) (updates : List (String × String))
    (extDeleteVacant : String → WriteResult)
    (hid : ∀ row ∈ env.sheet.rows,
      jsTrim (cellStrAt row (colIndex env.sheet.headers "Unique Personnel ID (UPID)"))
        ≠ jsTrim id)
    (hvac : jsStartsWith id "VAC-" = false) :
    updatePerson true env id updates = .ok (notFoundResult id, env.sheet)
    ∧ deletePerson true extDeleteVacant env id = .ok (notFoundResult id, env.sheet) := by
  have hfind := findRowIdx_none hid
  constructor
  · unfold updatePerson
    rw [if_neg (by simp), hfind]
  · unfold deletePerson
    rw [if_neg (by simp), if_neg (by simp [hvac])]
    simp only [hfind]

/-- C8 witness: both write paths against the roster `envWrite` and the
unknown id `999-999`. -/
theorem c8_write_not_found_witness :
    updatePerson true envWrite "999-999" [("email", "x@y.com")]
        = .ok (notFoundResult "999-999", envWrite.sheet)
    ∧ deletePerson true (fun _ => { success := false }) envWrite "999-999"
        = .ok (notFoundResult "999-999", envWrite.sheet) :=
  c8_write_not_found envWrite "999-999" [("email", "x@y.com")] (fun _ => { success := false })
    (by decide) (by decide)

/-! ## Claim C9 -/

/-- Frame property of a single sheet-cell write. -/
theorem cellAt_setSheetCell (s : Sheet) (i c : Nat) (v : Cell) (rowi : List Cell)
    (hrow : s.rows.get? i = some rowi) (hlen : c < rowi.length) :
    ∀ j k, cellAt (setSheetCell s i c v) j k
      = if j = i ∧ k = c then some v else cellAt s j k := by
  intro j k
  rcases List.get?_eq_some.1 hrow with ⟨hlt, _⟩
  by_cases hj : j = i
  · subst hj
    by_cases hk : k = c
    · subst hk
      rw [if_pos ⟨rfl, rfl⟩]
      unfold setSheetCell
      rw [hrow]
      unfold cellAt
      dsimp only
      rw [List.get?_set_eq_of_lt _ hlt]
      unfold setCellInRow
      rw [if_pos hlen]
      exact List.get?_set_eq_of_lt _ hlen
    · rw [if_neg (by tauto)]
      unfold setSheetCell
      rw [hrow]
      unfold cellAt
      dsimp only
      rw [List.get?_set_eq_of_lt _ hlt, hrow]
      unfold setCellInRow
      rw [if_pos hlen]
      exact List.get?_set_ne _ _ (fun he => hk he.symm)
  · rw [if_neg (by tauto)]
    unfold setSheetCell
    rw [hrow]
    unfold cellAt
    dsimp only
    rw [List.get?_set_ne _ _ (fun he => hj he.symm)]

/-- C9: `updatePerson(id, {parentId: p})` on an existing row silently
drops structural parent ids — when `p` is `root` or starts with
`task:`/`team:` the call reports success and the sheet is returned
unchanged (notably the Supervisor UPID cell, column 16, keeps its
value); only a non-structural `p` is written, and then exactly into
the Supervisor UPID cell of the matched row, every other cell
untouched. -/
theorem c9_structural_parent_dropped (env : Env) (id p : String) (i : Nat) (rowi : List Cell)
    (hh : env.sheet.headers = teamListHeaders)
    (hfind : findRowIdx env.sheet.headers env.sheet.rows id = some i)
    (hrow : env.sheet.rows.get? i = some rowi)
    (hlen : 17 ≤ rowi.length) :
    ((p = "root" ∨ jsStartsWith p "task:" = true ∨ jsStartsWith p "team:" = true) →
      updatePerson true env id [("parentId", p)] = .ok (okResult id, env.sheet))
    ∧ (p ≠ "root" → jsStartsWith p "task:" = false → jsStartsWith p "team:" = false →
      updatePerson true env id [("parentId", p)]
          = .ok (okResult id, setSheetCell env.sheet i 16 (.str p))
        ∧ ∀ j k, cellAt (setSheetCell env.sheet i 16 (.str p)) j k
            = if j = i ∧ k = 16 then some (.str p) else cellAt env.sheet j k) := by
  have hname : lookupAssoc [("parentId", p)] "name" = (none : Option String) := rfl
  have hpar : lookupAssoc [("parentId", p)] "parentId" = some p := rfl
  constructor
  · intro hp
    have hcond : (!(jsStartsWith p "task:") && !(jsStartsWith p "team:") && decide (p ≠ "root"))
        = false := by
      rcases hp with h | h | h <;> simp [h]
    unfold updatePerson
    rw [if_neg (by simp)]
    simp only [hfind, hname, hpar, hcond, Bool.false_eq_true, if_false]
    rfl
  · intro h1 h2 h3
    have hcond : (!(jsStartsWith p "task:") && !(jsStartsWith p "team:") && decide (p ≠ "root"))
        = true := by simp [h1, h2, h3]
    constructor
    · unfold updatePerson
      rw [if_neg (by simp)]
      simp only [hfind, hname, hpar, hcond, if_true]
      simp only [hh]
      rfl
    · exact cellAt_setSheetCell env.sheet i 16 (.str p) rowi hrow (by omega)

/-- C9 witness: updating `400-001` in `envWrite` with a structural and
with a plain parent id. -/
theorem c9_structural_parent_dropped_witness :
    updatePerson true envWrite "400-001" [("parentId", "root")]
        = .ok (okResult "400-001", envWrite.sheet)
    ∧ updatePerson true envWrite "400-001" [("parentId", "500-002")]
        = .ok (okResult "400-001", setSheetCell envWrite.sheet 0 16 (.str "500-002")) := by
  constructor
  · exact (c9_structural_parent_dropped envWrite "400-001" "root" 0 _ rfl (by decide) rfl
      (by decide)).1 (Or.inl rfl)
  · exact ((c9_structural_parent_dropped envWrite "400-001" "500-002" 0 _ rfl (by decide) rfl
      (by decide)).2 (by decide) (by decide) (by decide)).1

/-! ## Claim C10 -/

/-- C10: `getByEmail` on a non-empty email returns exactly the nodes of
`getAllData()` with a non-empty email whose lowercased-then-trimmed
email matches the lowercased-then-trimmed query; the empty (falsy)
email short-circuits to the empty list for every store. -/
theorem c10_email_lookup (env : Env) (e : String) (n : Node) :
    (e = "" → getByEmail env e = [])
    ∧ (e ≠ "" →
        (n ∈ getByEmail env e ↔
          n ∈ getAllData env ∧ n.email ≠ ""
            ∧ jsTrim (jsToLower n.email) = jsTrim (jsToLower e))) := by
  constructor
  · intro he
    unfold getByEmail
    rw [if_pos (by simp [he])]
  · intro he
    unfold getByEmail
    rw [if_neg (by simp [he])]
    simp only [List.mem_filter, Bool.and_eq_true, beq_iff_eq, decide_eq_true_eq]

/-- C10 witness: lookup on the concrete store `envCycle` — the empty
query returns nothing, and the case/whitespace-insensitive query
`"ANN@X.COM "` finds the record whose email is `ann@x.com`. -/
theorem c10_email_lookup_witness :
    getByEmail envCycle "" = [] ∧ annNode ∈ getByEmail envCycle "ANN@X.COM " := by
  constructor
  · exact (c10_email_lookup envCycle "" rootNode).1 rfl
  · exact ((c10_email_lookup envCycle "ANN@X.COM " annNode).2 (by decide)).mpr
      ⟨by decide, by decide, by decide⟩

end OrgCrud
